import Mathlib

/-!
Verification of the Literotica-to-EPUB converter (src/app.js).

Strings from the JavaScript source are modelled as `List Char`; `"…".data`
converts a Lean string literal to that representation.  Asynchrony is
modelled by passing the results of the external effects (HTTP transport
outcomes, parsed-document query results, clock reads) as explicit inputs.
-/

set_option maxRecDepth 16384

namespace Epub2

/-! ## Decimal rendering of naturals (JavaScript number-to-string on `i + 1`, `Date.now()`, …) -/

/-- One decimal digit character, `d < 10`. -/
def digitChar (d : Nat) : Char :=
  if d = 0 then '0' else if d = 1 then '1' else if d = 2 then '2'
  else if d = 3 then '3' else if d = 4 then '4' else if d = 5 then '5'
  else if d = 6 then '6' else if d = 7 then '7' else if d = 8 then '8' else '9'

/-- Accumulator loop for decimal rendering.  The fuel only bounds the number of
divisions by ten; `natDigits` supplies `n + 1`, which always exceeds the digit
count of `n`, so the fuel never runs out. -/
def natDigitsGo : Nat → Nat → List Char → List Char
  | 0, _, acc => acc
  | fuel + 1, n, acc =>
    if n < 10 then digitChar n :: acc
    else natDigitsGo fuel (n / 10) (digitChar (n % 10) :: acc)

/-- Decimal rendering of a natural number, mirroring JavaScript string interpolation. -/
def natDigits (n : Nat) : List Char := natDigitsGo (n + 1) n []

/-! ## Generic character-list matching primitives -/

/-- Character comparison used by case-insensitive regex matching (ASCII case folding). -/
def eqCI (a b : Char) : Bool := a.toLower == b.toLower

/-- Exact character comparison. -/
def eqX (a b : Char) : Bool := a == b

/-- If `pat` matches the front of `s` (under `eqc`), return the rest of `s`. -/
def matchBy (eqc : Char → Char → Bool) : List Char → List Char → Option (List Char)
  | [], s => some s
  | _ :: _, [] => none
  | p :: ps, c :: cs => if eqc p c then matchBy eqc ps cs else none

/-- `true` iff comparing `pat` against `s` does not hit a mismatch before `s` runs out:
i.e. `s` could still be extended to a string whose front matches `pat`. -/
def compatBy (eqc : Char → Char → Bool) : List Char → List Char → Bool
  | [], _ => true
  | _ :: _, [] => true
  | p :: ps, c :: cs => eqc p c && compatBy eqc ps cs

/-- Every position strictly inside `a` hits a mismatch against `pat` before `a` runs out,
so no occurrence of `pat` can start inside `a`, whatever follows `a`. -/
def chunkSafe (eqc : Char → Char → Bool) (pat a : List Char) : Bool :=
  (List.range a.length).all (fun p => !(compatBy eqc pat (a.drop p)))

/-! ## Retry/proxy-rotation fetch pipeline (src/app.js lines 4-14, 91-136) -/

def CORS_PROXIES : List (List Char) :=
  ["https://corsproxy.io/?".data,
   "https://api.allorigins.win/raw?url=".data,
   "https://cors-anywhere.herokuapp.com/".data]

def numProxies : Nat := CORS_PROXIES.length

/-- Outcome of one underlying HTTP attempt: a network/timeout error, or a
response with an ok-flag, a status code and a body. -/
inductive Outcome where
  | netErr (msg : List Char)
  | resp (ok : Bool) (status : Nat) (body : List Char)

/-- Validation of a single attempt, mirroring the body of the `try` block in
`fetchWithRetry`: non-ok status throws `HTTP <status>`; an empty or short body
(fewer than 100 characters) throws `Response too short or empty`; otherwise
the body text is returned. -/
def attemptResult (o : Outcome) : Except (List Char) (List Char) :=
  match o with
  | .netErr m => .error m
  | .resp ok status body =>
    if ok = false then .error ("HTTP ".data ++ natDigits status)
    else if body = [] ∨ body.length < 100 then .error ("Response too short or empty".data)
    else .ok body

/-- The message of a failed attempt (`[]` for a success; only used on failures). -/
def errOf : Except (List Char) (List Char) → List Char
  | .error m => m
  | .ok _ => []

/-- Whether an attempt failed. -/
def isErr : Except (List Char) (List Char) → Bool
  | .error _ => true
  | .ok _ => false

/-- The final error thrown after exhausting all retries:
`Failed to fetch after <maxRetries> attempts: <lastError.message>`.
(`lastError` is `none` only in the unreachable `maxRetries = 0` case, where the
JavaScript would fault reading `.message` of `undefined`.) -/
def failMsg (maxRetries : Nat) (lastError : Option (List Char)) : List Char :=
  "Failed to fetch after ".data ++ natDigits maxRetries ++ " attempts: ".data ++
    (match lastError with | some m => m | none => "undefined".data)

/-- Result of a `fetchWithRetry` run, instrumented with the observable facts the
spec talks about: number of attempts performed, number of proxy-index advances,
and the final proxy rotation index. -/
structure FetchResult where
  result : Except (List Char) (List Char)
  attempts : Nat
  advances : Nat
  finalIdx : Nat

/-- The retry loop of `fetchWithRetry`.  `tr attempt idx` is the outcome of the
HTTP fetch performed at the given attempt number through proxy index `idx`.
`remaining` counts the loop iterations still allowed (`maxRetries - attempt`).
On failure, the proxy index advances (circularly over the three proxies) only
when further attempts remain, exactly as `attempt < maxRetries - 1` in the source.
The 2-second backoff and 30-second timeout are wall-clock effects with no
bearing on the modelled observables. -/
def fetchGo (tr : Nat → Nat → Outcome) (maxRetries : Nat) :
    Nat → Nat → Nat → Option (List Char) → Nat → FetchResult
  | attempt, idx, adv, lastErr, 0 => ⟨.error (failMsg maxRetries lastErr), attempt, adv, idx⟩
  | attempt, idx, adv, _, r + 1 =>
    match attemptResult (tr attempt idx) with
    | .ok body => ⟨.ok body, attempt + 1, adv, idx⟩
    | .error e =>
      if r = 0 then ⟨.error (failMsg maxRetries (some e)), attempt + 1, adv, idx⟩
      else fetchGo tr maxRetries (attempt + 1) ((idx + 1) % numProxies) (adv + 1) (some e) r

/-- `fetchWithRetry(url, maxRetries)` from src/app.js, started at proxy rotation
index `start` (the module-level `currentProxyIndex`). -/
def fetchWithRetry (tr : Nat → Nat → Outcome) (maxRetries : Nat) (start : Nat) : FetchResult :=
  fetchGo tr maxRetries 0 start 0 none maxRetries

/-! ## Regex-based stripping of script/style/iframe blocks (src/app.js lines 196-204)

The source removes the disallowed elements with three sequential global
case-insensitive regex replacements of the shape

  open tag, word boundary, then everything up to and including the first
  closing tag, replaced by the empty string.

`stripTag` is a left-to-right scanner with exactly that semantics: at each
position it tries to match the opening `<tag` case-insensitively, requires a
word boundary after the tag name, looks for the first case-insensitive
occurrence of the closing `</tag>` and, on success, deletes everything through
that closing tag and continues scanning after it; otherwise it keeps the
character and moves one position right. -/

/-- Length bookkeeping for `matchBy` (needed for termination of the scanners). -/
theorem matchBy_length (eqc : Char → Char → Bool) :
    ∀ (p s r : List Char), matchBy eqc p s = some r → r.length + p.length = s.length := by
  intro p
  induction p with
  | nil => intro s r h; simp [matchBy] at h; simp [h]
  | cons a ps ih =>
    intro s r h
    cases s with
    | nil => simp [matchBy] at h
    | cons c cs =>
      simp only [matchBy] at h
      by_cases hc : eqc a c = true
      · simp [hc] at h
        have := ih cs r h
        simp [List.length_cons]
        omega
      · simp [hc] at h

/-- JavaScript word character (`\w`): ASCII letter, digit or underscore. -/
def isWordChar (c : Char) : Bool := c.isAlphanum || c == '_'

/-- The `\b` word boundary after the tag name: the following character (if any)
is not a word character. -/
def boundaryOK : List Char → Bool
  | [] => true
  | c :: _ => !(isWordChar c)

/-- Find the first case-insensitive occurrence of `close` in `s` and return
what follows it (the regex engine's search for the closing tag). -/
def findClose (close : List Char) : List Char → Option (List Char)
  | [] => none
  | c :: cs =>
    match matchBy eqCI close (c :: cs) with
    | some rest => some rest
    | none => findClose close cs

theorem findClose_length (c0 : Char) (ctl : List Char) :
    ∀ (s r : List Char), findClose (c0 :: ctl) s = some r → r.length < s.length := by
  intro s
  induction s with
  | nil => intro r h; simp [findClose] at h
  | cons c cs ih =>
    intro r h
    simp only [findClose] at h
    cases hm : matchBy eqCI (c0 :: ctl) (c :: cs) with
    | some rest =>
      rw [hm] at h
      have := matchBy_length eqCI (c0 :: ctl) (c :: cs) rest hm
      simp at h
      subst h
      simp [List.length_cons] at this ⊢
      omega
    | none =>
      rw [hm] at h
      have := ih r h
      simp [List.length_cons]
      omega

/-- Opening pattern of a disallowed element: `<` followed by the tag name. -/
def openPat (tag : List Char) : List Char := '<' :: tag

/-- Closing pattern of a disallowed element: `</tag>`. -/
def closePat (tag : List Char) : List Char := '<' :: '/' :: (tag ++ ['>'])

/-- One matching step of the scanner at the current position: if the opening
tag matches case-insensitively here, the word boundary holds and a closing tag
is found further right, return what follows the closing tag. -/
def stripStep (tag : List Char) (s : List Char) : Option (List Char) :=
  match matchBy eqCI (openPat tag) s with
  | some rest => if boundaryOK rest then findClose (closePat tag) rest else none
  | none => none

theorem stripStep_length (tag : List Char) (c : Char) (cs rest2 : List Char)
    (h : stripStep tag (c :: cs) = some rest2) : rest2.length < (c :: cs).length := by
  unfold stripStep at h
  split at h
  · rename_i rest hm
    split at h
    · have h1 := matchBy_length eqCI (openPat tag) _ _ hm
      have h2 := findClose_length '<' ('/' :: (tag ++ ['>'])) rest rest2 (by
        simpa [closePat] using h)
      simp [openPat] at h1
      simp [List.length_cons] at h1 ⊢
      omega
    · simp at h
  · simp at h

/-- Scanner loop for one global regex replacement.  The fuel only bounds the
number of scanning steps; every step drops at least one character of the
input, so the initial fuel `s.length` supplied by `stripTag` never runs out
(`stripTagGo_fuel` below makes the fuel-independence precise). -/
def stripTagGo (tag : List Char) : Nat → List Char → List Char
  | 0, s => s
  | _ + 1, [] => []
  | fuel + 1, c :: cs =>
    match stripStep tag (c :: cs) with
    | some rest2 => stripTagGo tag fuel rest2
    | none => c :: stripTagGo tag fuel cs

/-- One global regex replacement
`content.replace(/<tag\b[^<]*(?:(?!<\/tag>)<[^<]*)*<\/tag>/gi, "")`
as a left-to-right scanner. -/
def stripTag (tag : List Char) (s : List Char) : List Char := stripTagGo tag s.length s

/-- The content clean-up in `fetchChapterContent`: strip script blocks, then
style blocks, then inline frames, in the source's order. -/
def sanitizeContent (s : List Char) : List Char :=
  stripTag ("iframe".data) (stripTag ("style".data) (stripTag ("script".data) s))

/-! ### A structural model of the captured markup

To state what the three regex replacements do, the captured `innerHTML` is
viewed as a sequence of segments: kept markup, and complete disallowed blocks
`<tag…>…</tag>`.  The well-formedness conditions below say that the disallowed
blocks are the only places where an opening pattern of a stripped tag can
start.  Serialized markup can violate them — a style element's raw text may
itself contain `<script>` — and on such inputs the regex passes diverge from
structural removal (see the counterexample below). -/

/-- The three disallowed element kinds. -/
inductive DisTag where
  | script
  | style
  | iframe
deriving DecidableEq

def DisTag.tagName : DisTag → List Char
  | .script => "script".data
  | .style => "style".data
  | .iframe => "iframe".data

/-- A segment of the captured markup: kept content, or a disallowed block
`<tag` + `mid` + `</tag>` (where `mid` holds the rest of the opening tag,
e.g. `>` or ` src="…">`, and the element's content). -/
inductive Node where
  | keep (s : List Char)
  | blk (t : DisTag) (mid : List Char)

def Node.render : Node → List Char
  | .keep s => s
  | .blk t mid => openPat t.tagName ++ (mid ++ closePat t.tagName)

def Node.isKeep : Node → Bool
  | .keep _ => true
  | .blk _ _ => false

def renderDoc : List Node → List Char
  | [] => []
  | nd :: rest => nd.render ++ renderDoc rest

/-- The segments surviving one stripping pass for tag `t`. -/
def removeBlocks (t : DisTag) (doc : List Node) : List Node :=
  doc.filter (fun nd => match nd with
    | .keep _ => true
    | .blk u _ => !(decide (u = t)))

/-- In a serialized block, the character right after the tag name is never a
word character (it is `>`, whitespace, or the `<` of the closing tag). -/
def midHeadOk : List Char → Bool
  | [] => true
  | c :: _ => !(isWordChar c)

/-- Well-formedness of one segment with respect to the pass for tag `t`:
no occurrence of the opening pattern can start inside kept content or inside
another block's interior, and a `t`-block's interior does not contain the
closing tag and starts at a word boundary. -/
def nodeOKb (t : DisTag) : Node → Bool
  | .keep s => chunkSafe eqCI (openPat t.tagName) s
  | .blk u mid =>
    if u = t then chunkSafe eqCI (closePat t.tagName) mid && midHeadOk mid
    else chunkSafe eqCI (openPat t.tagName) mid

def docOK (t : DisTag) (doc : List Node) : Prop := ∀ nd ∈ doc, nodeOKb t nd = true

instance (t : DisTag) (doc : List Node) : Decidable (docOK t doc) :=
  inferInstanceAs (Decidable (∀ nd ∈ doc, nodeOKb t nd = true))

/-! ## Chapter discovery (src/app.js lines 141-170) -/

/-- JavaScript whitespace recognized by `String.prototype.trim` (the characters
that can actually occur around scraped link/heading text). -/
def jsWhitespace (c : Char) : Bool :=
  c == ' ' || c == '\t' || c == '\n' || c == '\r' ||
  c == Char.ofNat 12 || c == Char.ofNat 11 || c == Char.ofNat 160

/-- `String.prototype.trim`: drop leading and trailing whitespace. -/
def jsTrim (s : List Char) : List Char :=
  ((s.dropWhile jsWhitespace).reverse.dropWhile jsWhitespace).reverse

/-- `true` iff `pat` is literally the front of `s` (JavaScript `startsWith`). -/
def startsWithX (pat s : List Char) : Bool := (matchBy eqX pat s).isSome

/-- One `.ser-ttl a` link element of a series page: its `href` attribute and
its text content. -/
structure SeriesLink where
  href : List Char
  text : List Char

/-- The queried facts of a retrieved source document that `fetchChapters`
inspects: the `.ser-ttl a` elements in document order, and the text of the
first `h1` element if one exists. -/
structure PageDoc where
  seriesLinks : List SeriesLink
  h1 : Option (List Char)

structure ChapterRef where
  title : List Char
  url : List Char
deriving DecidableEq

/-- Resolution of a chapter link target:
`href.startsWith("http") ? href : "https://www.literotica.com" + href`. -/
def resolveHref (href : List Char) : List Char :=
  if startsWithX ("http".data) href then href
  else "https://www.literotica.com".data ++ href

/-- `fetchChapters` after the document has been retrieved and parsed: a series
page (at least one `.ser-ttl a` link) yields one ChapterRef per link in
document order; otherwise the page is a standalone story whose title is the
trimmed `h1` text (default `Untitled Story`) and whose url is the input url. -/
def fetchChapters (url : List Char) (doc : PageDoc) : List ChapterRef :=
  if doc.seriesLinks.length > 0 then
    doc.seriesLinks.map (fun l => ⟨jsTrim l.text, resolveHref l.href⟩)
  else
    [⟨(match doc.h1 with | some t => jsTrim t | none => "Untitled Story".data), url⟩]

/-! ## Chapter content extraction (src/app.js lines 175-210) -/

/-- The queried facts of a retrieved chapter document that `fetchChapterContent`
inspects: the `innerHTML` of the first match of each selector of the fallback
chain `.aa_ht`, `div.panel article`, `.b-story-body-x` (or `none` when the
selector matches nothing). -/
structure StoryDoc where
  aaHt : Option (List Char)
  panelArticle : Option (List Char)
  storyBodyX : Option (List Char)

/-- `Could not find story content for chapter <n>` -/
def notFoundMsg (chapterNum : Nat) : List Char :=
  "Could not find story content for chapter ".data ++ natDigits chapterNum

/-- `Failed to fetch chapter <n>/<total>: <inner>` — the catch-all wrapper at
the bottom of `fetchChapterContent`. -/
def chapterFailMsg (chapterNum totalChapters : Nat) (inner : List Char) : List Char :=
  "Failed to fetch chapter ".data ++ natDigits chapterNum ++ "/".data ++
    natDigits totalChapters ++ ": ".data ++ inner

/-- `fetchChapterContent` after the chapter document has been retrieved and
parsed: the first selector of the fallback chain that matched supplies the
content, which is sanitized; when none matched, the content-not-found error is
thrown and re-wrapped by the surrounding catch with the chapter position and
the total chapter count. -/
def fetchChapterContent (doc : StoryDoc) (chapterNum totalChapters : Nat) :
    Except (List Char) (List Char) :=
  match
    (match doc.aaHt with
     | some c => some c
     | none =>
       match doc.panelArticle with
       | some c => some c
       | none => doc.storyBodyX) with
  | some content => .ok (sanitizeContent content)
  | none => .error (chapterFailMsg chapterNum totalChapters (notFoundMsg chapterNum))

/-! ## XML escaping and filename sanitization (src/app.js lines 310-321) -/

/-- One global single-character replacement `s.replace(/c/g, rep)`. -/
def replaceChar (target : Char) (rep : List Char) : List Char → List Char
  | [] => []
  | c :: cs => (if c = target then rep else [c]) ++ replaceChar target rep cs

/-- `escapeXml` from the source: five sequential global replacements, ampersand
first. (`Char.ofNat 39` is the apostrophe character.) -/
def escapeXml (s : List Char) : List Char :=
  replaceChar (Char.ofNat 39) ("&apos;".data)
    (replaceChar '"' ("&quot;".data)
      (replaceChar '>' ("&gt;".data)
        (replaceChar '<' ("&lt;".data)
          (replaceChar '&' ("&amp;".data) s))))

/-- Reference definition following the spec's words: each of the five reserved
XML characters is rewritten to its entity, all other characters are kept. -/
def escapeXmlSpec : List Char → List Char
  | [] => []
  | c :: cs =>
    (if c = '&' then "&amp;".data
     else if c = '<' then "&lt;".data
     else if c = '>' then "&gt;".data
     else if c = '"' then "&quot;".data
     else if c = Char.ofNat 39 then "&apos;".data
     else [c]) ++ escapeXmlSpec cs

/-- `sanitizeFilename`: replace every character that is not an ASCII letter or
digit by an underscore, then lower-case the result. -/
def sanitizeFilename (name : List Char) : List Char :=
  (name.map (fun c => if c.isAlphanum then c else '_')).map Char.toLower

/-! ## Title derivation and output filename (src/app.js lines 76-77 and 299) -/

/-- The characters of `s` before the first occurrence of `sep`
(element 0 of JavaScript `s.split(sep)`). -/
def takeBeforeSub (sep : List Char) : List Char → List Char
  | [] => []
  | c :: cs =>
    if (matchBy eqX sep (c :: cs)).isSome then []
    else c :: takeBeforeSub sep cs

/-- `chapterContents[0].title.split(" - ")[0] || "Literotica Story"`. -/
def projectTitle (firstChapterTitle : List Char) : List Char :=
  let t := takeBeforeSub (" - ".data) firstChapterTitle
  if t = [] then "Literotica Story".data else t

/-- The filename handed to the file-delivery capability. -/
def outputFilename (title : List Char) : List Char :=
  sanitizeFilename title ++ ".epub".data

/-! ## EPUB assembly (src/app.js lines 215-300)

`createEpub` is modelled as the list of archive entries it creates, in creation
order, with the compression option it passes for each entry.  The source
evaluates `Date.now()` twice — once while building `content.opf` and once while
building `toc.ncx`; those two clock reads are the inputs `now1` and `now2`. -/

structure Chapter where
  title : List Char
  content : List Char

/-- An archive entry: name, byte content, and the compression option passed to
the archive writer (`some "STORE"` means explicitly stored uncompressed). -/
structure ZipEntry where
  name : List Char
  body : List Char
  compression : Option (List Char)
deriving DecidableEq

/-- `chapters.map((x, i) => f(i, x))`, keeping the running index explicit. -/
def mapWithIndex {α : Type} (f : Nat → Chapter → α) : Nat → List Chapter → List α
  | _, [] => []
  | i, c :: cs => f i c :: mapWithIndex f (i + 1) cs

/-- JavaScript `Array.prototype.join("\n")`. -/
def joinNl : List (List Char) → List Char
  | [] => []
  | [x] => x
  | x :: y :: r => x ++ '\n' :: joinNl (y :: r)

def containerXml : List Char :=
  ("<?xml version=\"1.0\"?>\n<container version=\"1.0\" xmlns=\"urn:oasis:names:tc:opendocument:xmlns:container\">\n  <rootfiles>\n    <rootfile full-path=\"OEBPS/content.opf\" media-type=\"application/oebps-package+xml\"/>\n  </rootfiles>\n</container>").data

/-- The `chapter<n>.xhtml` document for one chapter (title escaped, body verbatim). -/
def chapterXhtml (ch : Chapter) : List Char :=
  ("<?xml version=\"1.0\" encoding=\"UTF-8\"?>\n<!DOCTYPE html>\n<html xmlns=\"http://www.w3.org/1999/xhtml\">\n<head>\n  <title>").data ++
  escapeXml ch.title ++
  ("</title>\n</head>\n<body>\n  <h1>").data ++
  escapeXml ch.title ++
  ("</h1>\n  ").data ++
  ch.content ++
  ("\n</body>\n</html>").data

/-- One manifest item line of `content.opf` (index `i` is 0-based). -/
def itemLine (i : Nat) : List Char :=
  ("    <item id=\"chapter").data ++ natDigits (i + 1) ++
  ("\" href=\"chapter").data ++ natDigits (i + 1) ++
  (".xhtml\" media-type=\"application/xhtml+xml\"/>").data

/-- One spine line of `content.opf`. -/
def spineLine (i : Nat) : List Char :=
  ("    <itemref idref=\"chapter").data ++ natDigits (i + 1) ++ ("\"/>").data

/-- `content.opf` (`now1` is the first `Date.now()` read). -/
def contentOpf (title : List Char) (chapters : List Chapter) (now1 : Nat) : List Char :=
  ("<?xml version=\"1.0\" encoding=\"UTF-8\"?>\n<package xmlns=\"http://www.idpf.org/2007/opf\" version=\"3.0\" unique-identifier=\"uid\">\n  <metadata xmlns:dc=\"http://purl.org/dc/elements/1.1/\">\n    <dc:title>").data ++
  escapeXml title ++
  ("</dc:title>\n    <dc:creator>Literotica Author</dc:creator>\n    <dc:language>en</dc:language>\n    <dc:identifier id=\"uid\">literotica-").data ++
  natDigits now1 ++
  ("</dc:identifier>\n  </metadata>\n  <manifest>\n    <item id=\"ncx\" href=\"toc.ncx\" media-type=\"application/x-dtbncx+xml\"/>\n").data ++
  joinNl (mapWithIndex (fun i _ => itemLine i) 0 chapters) ++
  ("\n  </manifest>\n  <spine toc=\"ncx\">\n").data ++
  joinNl (mapWithIndex (fun i _ => spineLine i) 0 chapters) ++
  ("\n  </spine>\n</package>").data

/-- One `navPoint` of `toc.ncx`. -/
def navPoint (i : Nat) (ch : Chapter) : List Char :=
  ("    <navPoint id=\"chapter").data ++ natDigits (i + 1) ++
  ("\" playOrder=\"").data ++ natDigits (i + 1) ++
  ("\">\n      <navLabel>\n        <text>").data ++
  escapeXml ch.title ++
  ("</text>\n      </navLabel>\n      <content src=\"chapter").data ++ natDigits (i + 1) ++
  (".xhtml\"/>\n    </navPoint>").data

/-- `toc.ncx` (`now2` is the second `Date.now()` read). -/
def tocNcx (title : List Char) (chapters : List Chapter) (now2 : Nat) : List Char :=
  ("<?xml version=\"1.0\" encoding=\"UTF-8\"?>\n<ncx xmlns=\"http://www.daisy.org/z3986/2005/ncx/\" version=\"2005-1\">\n  <head>\n    <meta name=\"dtb:uid\" content=\"literotica-").data ++
  natDigits now2 ++
  ("\"/>\n    <meta name=\"dtb:depth\" content=\"1\"/>\n  </head>\n  <docTitle>\n    <text>").data ++
  escapeXml title ++
  ("</text>\n  </docTitle>\n  <navMap>\n").data ++
  joinNl (mapWithIndex navPoint 0 chapters) ++
  ("\n  </navMap>\n</ncx>").data

/-- The archive entries created by `createEpub`, in creation order. -/
def createEpub (title : List Char) (chapters : List Chapter) (now1 now2 : Nat) : List ZipEntry :=
  ⟨"mimetype".data, "application/epub+zip".data, some ("STORE".data)⟩ ::
  ⟨"META-INF/container.xml".data, containerXml, none⟩ ::
  (mapWithIndex
    (fun i ch => (⟨("OEBPS/chapter").data ++ natDigits (i + 1) ++ (".xhtml").data,
                   chapterXhtml ch, none⟩ : ZipEntry)) 0 chapters ++
   [⟨"OEBPS/content.opf".data, contentOpf title chapters now1, none⟩,
    ⟨"OEBPS/toc.ncx".data, tocNcx title chapters now2, none⟩])

/-! ## Extraction of structure from the generated XML (verification side)

These scanners read facts back out of the generated documents, so that the
theorems about `createEpub` are about the produced text, not about a
pre-digested structure. -/

/-- Characters of `s` strictly before the first occurrence of `stop`. -/
def takeUntilChar (stop : Char) : List Char → List Char
  | [] => []
  | c :: cs => if c = stop then [] else c :: takeUntilChar stop cs

/-- All fields of `s` introduced by the pattern `p0 :: ptl`: at each exact
occurrence of the pattern, collect the characters that follow it up to the next
`stop` character, then continue scanning right after the pattern. -/
def extractAfter (p0 : Char) (ptl : List Char) (stop : Char) : List Char → List (List Char)
  | [] => []
  | c :: cs =>
    match h : matchBy eqX (p0 :: ptl) (c :: cs) with
    | some rest => takeUntilChar stop rest :: extractAfter p0 ptl stop rest
    | none => extractAfter p0 ptl stop cs
termination_by s => s.length
decreasing_by
  · have hm := matchBy_length eqX (p0 :: ptl) _ _ h
    simp at hm
    simp only [List.length_cons]
    omega
  · simp only [List.length_cons]; omega

/-- Exact substring test. -/
def containsSub (pat : List Char) : List Char → Bool
  | [] => (matchBy eqX pat []).isSome
  | c :: cs => (matchBy eqX pat (c :: cs)).isSome || containsSub pat cs

/-! # Theorems -/

/-! ## The retry loop (claims C1 and C2) -/

theorem numProxies_eq : numProxies = 3 := rfl

theorem isErr_exists_error (x : Except (List Char) (List Char)) (h : isErr x = true) :
    ∃ e, x = .error e := by
  cases x with
  | error m => exact ⟨m, rfl⟩
  | ok b => simp [isErr] at h

theorem fetchGo_step (tr : Nat → Nat → Outcome) (n attempt idx adv : Nat)
    (le : Option (List Char)) (r : Nat) :
    fetchGo tr n attempt idx adv le (r + 1) =
      (match attemptResult (tr attempt idx) with
       | .ok body => ⟨.ok body, attempt + 1, adv, idx⟩
       | .error e =>
         if r = 0 then ⟨.error (failMsg n (some e)), attempt + 1, adv, idx⟩
         else fetchGo tr n (attempt + 1) ((idx + 1) % numProxies) (adv + 1) (some e) r) := rfl

/-- Exhaustion lemma for the retry loop: if every attempt fails, a run with
`r + 1` iterations left performs them all, advancing the proxy index on each
failure except the final one. -/
theorem fetchGo_all_fail (tr : Nat → Nat → Outcome) (n : Nat)
    (hfail : ∀ i j, isErr (attemptResult (tr i j)) = true) :
    ∀ (r attempt idx adv : Nat) (le : Option (List Char)), idx < numProxies →
      fetchGo tr n attempt idx adv le (r + 1) =
        ⟨.error (failMsg n (some (errOf (attemptResult (tr (attempt + r) ((idx + r) % numProxies)))))),
         attempt + r + 1, adv + r, (idx + r) % numProxies⟩ := by
  intro r
  induction r with
  | zero =>
    intro attempt idx adv le hidx
    obtain ⟨e, he⟩ := isErr_exists_error _ (hfail attempt idx)
    simp [fetchGo_step, he, Nat.mod_eq_of_lt hidx, errOf]
  | succ r ih =>
    intro attempt idx adv le hidx
    obtain ⟨e, he⟩ := isErr_exists_error _ (hfail attempt idx)
    have hidx' : (idx + 1) % numProxies < numProxies := by
      rw [numProxies_eq]; omega
    have hrec := ih (attempt + 1) ((idx + 1) % numProxies) (adv + 1) (some e) hidx'
    rw [fetchGo_step, he]
    simp only [Nat.succ_ne_zero, if_false, hrec]
    have hmod : ((idx + 1) % numProxies + r) % numProxies = (idx + (r + 1)) % numProxies := by
      rw [numProxies_eq]; omega
    have harith : attempt + 1 + r = attempt + (r + 1) := by omega
    have harith2 : adv + 1 + r = adv + (r + 1) := by omega
    rw [hmod, harith, harith2]

/-- C1: with an always-failing transport and `maxAttempts = n ≥ 1`, `fetch`
performs exactly `n` attempts, advances the proxy rotation index after every
attempt except the last (so `n - 1` advances, leaving the index at
`(start + n - 1) mod 3`), and fails with the retrieval error that names the
attempt count and embeds the last underlying error's message. -/
theorem c1_fetch_exhausts_all_attempts (tr : Nat → Nat → Outcome) (n start : Nat)
    (hn : 1 ≤ n) (hs : start < numProxies)
    (hfail : ∀ i j, isErr (attemptResult (tr i j)) = true) :
    fetchWithRetry tr n start =
      ⟨.error (failMsg n (some (errOf (attemptResult (tr (n - 1) ((start + (n - 1)) % numProxies)))))),
       n, n - 1, (start + (n - 1)) % numProxies⟩ := by
  obtain ⟨r, rfl⟩ : ∃ r, n = r + 1 := ⟨n - 1, by omega⟩
  have := fetchGo_all_fail tr (r + 1) hfail r 0 start 0 none hs
  simp only [fetchWithRetry, this]
  simp [Nat.add_sub_cancel]

/-- Witness for C1: three attempts, all network errors. -/
theorem c1_witness :
    fetchWithRetry (fun _ _ => .netErr ("boom".data)) 3 0 =
      ⟨.error (failMsg 3 (some ("boom".data))), 3, 2, 2⟩ :=
  c1_fetch_exhausts_all_attempts (fun _ _ => .netErr ("boom".data)) 3 0
    (by decide) (by decide) (fun _ _ => rfl)

/-- Success lemma for the retry loop: failures on the first `k` attempts and a
validated success on attempt `k` short-circuit the loop. -/
theorem fetchGo_first_success (tr : Nat → Nat → Outcome) (n : Nat) (b : List Char) :
    ∀ (k r attempt idx adv : Nat) (le : Option (List Char)), idx < numProxies → k < r →
      (∀ i, i < k → isErr (attemptResult (tr (attempt + i) ((idx + i) % numProxies))) = true) →
      attemptResult (tr (attempt + k) ((idx + k) % numProxies)) = .ok b →
      fetchGo tr n attempt idx adv le r =
        ⟨.ok b, attempt + k + 1, adv + k, (idx + k) % numProxies⟩ := by
  intro k
  induction k with
  | zero =>
    intro r attempt idx adv le hidx hkr hfail hsucc
    obtain ⟨r', rfl⟩ : ∃ r', r = r' + 1 := ⟨r - 1, by omega⟩
    simp only [Nat.add_zero, Nat.mod_eq_of_lt hidx] at hsucc
    simp only [Nat.add_zero, Nat.mod_eq_of_lt hidx]
    simp [fetchGo_step, hsucc]
  | succ k ih =>
    intro r attempt idx adv le hidx hkr hfail hsucc
    obtain ⟨r', rfl⟩ : ∃ r', r = r' + 1 := ⟨r - 1, by omega⟩
    have h0 := hfail 0 (by omega)
    simp only [Nat.add_zero, Nat.mod_eq_of_lt hidx] at h0
    obtain ⟨e, he⟩ := isErr_exists_error _ h0
    obtain ⟨r2, rfl⟩ : ∃ r2, r' = r2 + 1 := ⟨r' - 1, by omega⟩
    have hidx' : (idx + 1) % numProxies < numProxies := by rw [numProxies_eq]; omega
    have hmod : ∀ j : Nat, ((idx + 1) % numProxies + j) % numProxies = (idx + (1 + j)) % numProxies := by
      intro j; rw [numProxies_eq]; omega
    have hfail' : ∀ i, i < k →
        isErr (attemptResult (tr (attempt + 1 + i) (((idx + 1) % numProxies + i) % numProxies))) = true := by
      intro i hi
      rw [hmod i]
      have h1 := hfail (1 + i) (by omega)
      have e1 : attempt + (1 + i) = attempt + 1 + i := by omega
      rw [e1] at h1
      exact h1
    have hsucc' : attemptResult (tr (attempt + 1 + k) (((idx + 1) % numProxies + k) % numProxies)) = .ok b := by
      rw [hmod k]
      have e1 : attempt + 1 + k = attempt + (k + 1) := by omega
      have e2 : idx + (1 + k) = idx + (k + 1) := by omega
      rw [e1, e2]
      exact hsucc
    have hrec := ih (r2 + 1) (attempt + 1) ((idx + 1) % numProxies) (adv + 1)
      (some e) hidx' (by omega) hfail' hsucc'
    rw [fetchGo_step, he]
    simp only [Nat.succ_ne_zero, if_false, hrec]
    rw [hmod k]
    have e1 : attempt + 1 + k = attempt + (k + 1) := by omega
    have e2 : adv + 1 + k = adv + (k + 1) := by omega
    have e3 : idx + (1 + k) = idx + (k + 1) := by omega
    rw [e1, e2, e3]

/-- C2: `fetch` returns the body of the first attempt whose response has a
success status and a body of at least 100 characters, performing exactly
`k + 1` attempts (short-circuiting the rest); and an attempt whose response has
a success status but a body shorter than 100 characters (in particular an
empty one) is treated as a failure. -/
theorem c2_fetch_first_valid_success (tr : Nat → Nat → Outcome) (n start k : Nat) (b : List Char)
    (hs : start < numProxies) (hk : k < n)
    (hfail : ∀ i, i < k → isErr (attemptResult (tr i ((start + i) % numProxies))) = true)
    (hsucc : attemptResult (tr k ((start + k) % numProxies)) = .ok b) :
    fetchWithRetry tr n start = ⟨.ok b, k + 1, k, (start + k) % numProxies⟩ ∧
      (∀ (status : Nat) (body : List Char), body.length < 100 →
        attemptResult (.resp true status body) = .error ("Response too short or empty".data)) := by
  constructor
  · have := fetchGo_first_success tr n b k n 0 start 0 none hs hk
      (by intro i hi; simpa using hfail i hi) (by simpa using hsucc)
    simpa [fetchWithRetry] using this
  · intro status body hlen
    simp [attemptResult, hlen, Or.inr hlen]

/-- Witness for C2: the first attempt fails with a short body, the second
succeeds with a 100-character body; the loop stops after two attempts. -/
theorem c2_witness :
    fetchWithRetry
      (fun i _ => if i = 0 then .resp true 200 ("hi".data)
                  else .resp true 200 (List.replicate 100 'a')) 3 0 =
      ⟨.ok (List.replicate 100 'a'), 2, 1, 1⟩ :=
  (c2_fetch_first_valid_success
      (fun i _ => if i = 0 then .resp true 200 ("hi".data)
                  else .resp true 200 (List.replicate 100 'a')) 3 0 1
      (List.replicate 100 'a')
      (by decide) (by decide)
      (by decide)
      (by simp [attemptResult])).1

/-! ## Basic lemmas about the matching primitives -/

theorem compatBy_false_append (eqc : Char → Char → Bool) :
    ∀ (p s x : List Char), compatBy eqc p s = false → compatBy eqc p (s ++ x) = false := by
  intro p
  induction p with
  | nil => intro s x h; simp [compatBy] at h
  | cons a ps ih =>
    intro s x h
    cases s with
    | nil => simp [compatBy] at h
    | cons c cs =>
      by_cases he : eqc a c = true
      · simp only [compatBy, he, Bool.true_and] at h
        simp only [List.cons_append, compatBy, he, Bool.true_and]
        exact ih cs x h
      · have he' : eqc a c = false := by
          cases hx : eqc a c
          · rfl
          · exact absurd hx he
        simp only [List.cons_append, compatBy, he', Bool.false_and]

theorem matchBy_none_of_compat_false (eqc : Char → Char → Bool) :
    ∀ (p s x : List Char), compatBy eqc p s = false → matchBy eqc p (s ++ x) = none := by
  intro p
  induction p with
  | nil => intro s x h; simp [compatBy] at h
  | cons a ps ih =>
    intro s x h
    cases s with
    | nil => simp [compatBy] at h
    | cons c cs =>
      by_cases he : eqc a c = true
      · simp only [compatBy, he, Bool.true_and] at h
        simp only [List.cons_append, matchBy, he, if_true]
        exact ih cs x h
      · have he' : eqc a c = false := by
          cases hx : eqc a c
          · rfl
          · exact absurd hx he
        simp only [List.cons_append, matchBy, he', Bool.false_eq_true, if_false]

theorem chunkSafe_iff (eqc : Char → Char → Bool) (pat a : List Char) :
    chunkSafe eqc pat a = true ↔
      ∀ p, p < a.length → compatBy eqc pat (a.drop p) = false := by
  simp [chunkSafe, List.all_eq_true, List.mem_range, Bool.not_eq_true']

theorem chunkSafe_no_match (eqc : Char → Char → Bool) (pat a x : List Char)
    (h : chunkSafe eqc pat a = true) :
    ∀ p, p < a.length → matchBy eqc pat ((a ++ x).drop p) = none := by
  intro p hp
  rw [List.drop_append_eq_append_drop]
  have h0 : p - a.length = 0 := by omega
  rw [h0, List.drop_zero]
  exact matchBy_none_of_compat_false eqc pat (a.drop p) x ((chunkSafe_iff eqc pat a).1 h p hp)

theorem chunkSafe_append (eqc : Char → Char → Bool) (pat a b : List Char)
    (ha : chunkSafe eqc pat a = true) (hb : chunkSafe eqc pat b = true) :
    chunkSafe eqc pat (a ++ b) = true := by
  rw [chunkSafe_iff]
  intro p hp
  rw [List.drop_append_eq_append_drop]
  by_cases hpa : p < a.length
  · exact compatBy_false_append eqc pat (a.drop p) _ ((chunkSafe_iff eqc pat a).1 ha p hpa)
  · have h0 : a.drop p = [] := List.drop_eq_nil_of_le (by omega)
    rw [h0, List.nil_append]
    have hlen : p - a.length < b.length := by
      simp [List.length_append] at hp
      omega
    exact (chunkSafe_iff eqc pat b).1 hb _ hlen

theorem chunkSafe_of_head_neq (eqc : Char → Char → Bool) (p0 : Char) (ptl a : List Char)
    (h : ∀ c ∈ a, eqc p0 c = false) : chunkSafe eqc (p0 :: ptl) a = true := by
  rw [chunkSafe_iff]
  intro p hp
  cases hd : a.drop p with
  | nil =>
    have := congrArg List.length hd
    simp [List.length_drop] at this
    omega
  | cons c cs =>
    have hc : c ∈ a := List.drop_subset p a (by rw [hd]; exact List.mem_cons_self c cs)
    simp [compatBy, h c hc]

theorem chunkSafe_nil (eqc : Char → Char → Bool) (pat : List Char) :
    chunkSafe eqc pat [] = true := by
  rw [chunkSafe_iff]; intro p hp; simp at hp

theorem chunkSafe_tail (eqc : Char → Char → Bool) (pat : List Char) (c : Char) (a : List Char)
    (h : chunkSafe eqc pat (c :: a) = true) : chunkSafe eqc pat a = true := by
  rw [chunkSafe_iff] at h ⊢
  intro p hp
  have := h (p + 1) (by simp; omega)
  simpa [List.drop_succ_cons] using this

theorem eqX_refl (c : Char) : eqX c c = true := by simp [eqX]

theorem eqCI_refl (c : Char) : eqCI c c = true := by simp [eqCI]

theorem matchBy_refl (eqc : Char → Char → Bool) (hrefl : ∀ c, eqc c c = true) :
    ∀ (p x : List Char), matchBy eqc p (p ++ x) = some x := by
  intro p
  induction p with
  | nil => intro x; rfl
  | cons a ps ih => intro x; simp [matchBy, hrefl a, ih x]

/-- A pattern with head `p0` cannot start inside a chunk that never contains
`p0` (exact matching). -/
theorem chunkSafeX_not_mem (p0 : Char) (ptl a : List Char) (h : p0 ∉ a) :
    chunkSafe eqX (p0 :: ptl) a = true := by
  apply chunkSafe_of_head_neq
  intro c hc
  have : p0 ≠ c := fun he => h (he ▸ hc)
  simp [eqX, this]

/-! ## Behaviour of the stripping scanner (claim C7) -/

theorem stripTagGo_nil (tag : List Char) : ∀ fuel : Nat, stripTagGo tag fuel [] = [] := by
  intro fuel
  cases fuel <;> rfl

/-- The scanner does not depend on the fuel, as long as the fuel covers the
input's length. -/
theorem stripTagGo_fuel (tag : List Char) :
    ∀ (f g : Nat) (s : List Char), s.length ≤ f → s.length ≤ g →
      stripTagGo tag f s = stripTagGo tag g s := by
  intro f
  induction f with
  | zero =>
    intro g s hf hg
    have hs : s = [] := List.eq_nil_of_length_eq_zero (by omega)
    subst hs
    rw [stripTagGo_nil, stripTagGo_nil]
  | succ f ih =>
    intro g s hf hg
    cases s with
    | nil => rw [stripTagGo_nil, stripTagGo_nil]
    | cons c cs =>
      obtain ⟨g', rfl⟩ : ∃ g', g = g' + 1 := ⟨g - 1, by
        simp [List.length_cons] at hg
        omega⟩
      simp only [List.length_cons] at hf hg
      simp only [stripTagGo]
      cases hstep : stripStep tag (c :: cs) with
      | some rest2 =>
        have hlen := stripStep_length tag c cs rest2 hstep
        simp only [List.length_cons] at hlen
        exact ih g' rest2 (by omega) (by omega)
      | none =>
        exact congrArg (List.cons c) (ih g' cs (by omega) (by omega))

theorem stripTag_nil (tag : List Char) : stripTag tag [] = [] := rfl

theorem stripTag_cons_none (tag : List Char) (c : Char) (cs : List Char)
    (h : stripStep tag (c :: cs) = none) :
    stripTag tag (c :: cs) = c :: stripTag tag cs := by
  unfold stripTag
  simp only [List.length_cons, stripTagGo, h]

theorem stripTag_cons_some (tag : List Char) (c : Char) (cs rest2 : List Char)
    (h : stripStep tag (c :: cs) = some rest2) :
    stripTag tag (c :: cs) = stripTag tag rest2 := by
  unfold stripTag
  simp only [List.length_cons, stripTagGo, h]
  have hlen := stripStep_length tag c cs rest2 h
  simp only [List.length_cons] at hlen
  exact stripTagGo_fuel tag cs.length rest2.length rest2 (by omega) (le_refl _)

theorem stripStep_none_of_no_match (tag s : List Char)
    (h : matchBy eqCI (openPat tag) s = none) : stripStep tag s = none := by
  simp [stripStep, h]

/-- A chunk in which the opening pattern cannot start is emitted verbatim. -/
theorem stripTag_emit (tag : List Char) :
    ∀ (a b : List Char), chunkSafe eqCI (openPat tag) a = true →
      stripTag tag (a ++ b) = a ++ stripTag tag b := by
  intro a
  induction a with
  | nil => intro b _; simp
  | cons c a' ih =>
    intro b hsafe
    have h0 : matchBy eqCI (openPat tag) (((c :: a') ++ b).drop 0) = none :=
      chunkSafe_no_match eqCI (openPat tag) (c :: a') b hsafe 0 (by simp)
    simp only [List.drop_zero, List.cons_append] at h0
    have hstep : stripStep tag (c :: (a' ++ b)) = none := stripStep_none_of_no_match _ _ h0
    rw [List.cons_append, stripTag_cons_none _ _ _ hstep, ih b (chunkSafe_tail _ _ _ _ hsafe)]
    rfl

/-- The closing-tag search skips a chunk in which the closing pattern cannot
start. -/
theorem findClose_skip (c0 : Char) (ctl : List Char) :
    ∀ (a b : List Char), chunkSafe eqCI (c0 :: ctl) a = true →
      findClose (c0 :: ctl) (a ++ b) = findClose (c0 :: ctl) b := by
  intro a
  induction a with
  | nil => intro b _; simp
  | cons c a' ih =>
    intro b hsafe
    have h0 : matchBy eqCI (c0 :: ctl) (((c :: a') ++ b).drop 0) = none :=
      chunkSafe_no_match eqCI (c0 :: ctl) (c :: a') b hsafe 0 (by simp)
    simp only [List.drop_zero, List.cons_append] at h0
    rw [List.cons_append]
    simp only [findClose, h0]
    exact ih b (chunkSafe_tail _ _ _ _ hsafe)

theorem findClose_at_close (c0 : Char) (ctl x : List Char) :
    findClose (c0 :: ctl) ((c0 :: ctl) ++ x) = some x := by
  have h := matchBy_refl eqCI eqCI_refl (c0 :: ctl) x
  rw [List.cons_append]
  simp only [findClose]
  rw [List.cons_append] at h
  simp [h]

theorem boundaryOK_mid (tag mid X : List Char) (hhd : midHeadOk mid = true) :
    boundaryOK (mid ++ (closePat tag ++ X)) = true := by
  cases mid with
  | nil => simp [closePat, boundaryOK, isWordChar]
  | cons c cs => simpa [boundaryOK, midHeadOk] using hhd

/-- At the start of a well-formed `t`-block, the scanner matches the whole
block and returns what follows it. -/
theorem stripStep_at_block (tag mid X : List Char)
    (hmid : chunkSafe eqCI (closePat tag) mid = true)
    (hhd : midHeadOk mid = true) :
    stripStep tag (openPat tag ++ (mid ++ (closePat tag ++ X))) = some X := by
  have hopen := matchBy_refl eqCI eqCI_refl (openPat tag) (mid ++ (closePat tag ++ X))
  simp only [stripStep, hopen]
  rw [if_pos (boundaryOK_mid tag mid X hhd)]
  have hskip : findClose (closePat tag) (mid ++ (closePat tag ++ X)) =
      findClose (closePat tag) (closePat tag ++ X) := by
    have : closePat tag = '<' :: ('/' :: (tag ++ ['>'])) := rfl
    rw [this]
    exact findClose_skip '<' ('/' :: (tag ++ ['>'])) mid (closePat tag ++ X) (by rw [← this]; exact hmid)
  rw [hskip]
  have : closePat tag = '<' :: ('/' :: (tag ++ ['>'])) := rfl
  rw [this]
  exact findClose_at_close '<' ('/' :: (tag ++ ['>'])) X

/-- A well-formed `t`-block is deleted wholesale. -/
theorem stripTag_block (tag mid X : List Char)
    (hmid : chunkSafe eqCI (closePat tag) mid = true)
    (hhd : midHeadOk mid = true) :
    stripTag tag (openPat tag ++ (mid ++ (closePat tag ++ X))) = stripTag tag X := by
  have hstep := stripStep_at_block tag mid X hmid hhd
  have hform : openPat tag ++ (mid ++ (closePat tag ++ X)) =
      '<' :: (tag ++ (mid ++ (closePat tag ++ X))) := by simp [openPat]
  rw [hform] at hstep ⊢
  exact stripTag_cons_some tag '<' _ X hstep

/-- The opening pattern of one tag cannot start inside the opening pattern of
a different tag. -/
theorem openPat_cross_safe :
    ∀ (t u : DisTag), u ≠ t →
      chunkSafe eqCI (openPat t.tagName) (openPat u.tagName) = true := by
  intro t u h
  cases t <;> cases u <;> first | (exact absurd rfl h) | decide

/-- The opening pattern of a tag cannot start inside any closing pattern. -/
theorem closePat_cross_safe :
    ∀ (t u : DisTag), chunkSafe eqCI (openPat t.tagName) (closePat u.tagName) = true := by
  intro t u
  cases t <;> cases u <;> decide

/-- Master lemma for one stripping pass: on a well-formed document, the pass
for tag `t` deletes exactly the `t`-blocks and leaves every other segment
verbatim. -/
theorem stripTag_removes (t : DisTag) :
    ∀ doc : List Node, docOK t doc →
      stripTag t.tagName (renderDoc doc) = renderDoc (removeBlocks t doc) := by
  intro doc
  induction doc with
  | nil => intro _; simp [renderDoc, removeBlocks, stripTag_nil]
  | cons nd rest ih =>
    intro h
    have hnd : nodeOKb t nd = true := h nd (by simp)
    have hrest : docOK t rest := fun x hx => h x (by simp [hx])
    cases nd with
    | keep s =>
      have hsafe : chunkSafe eqCI (openPat t.tagName) s = true := by
        simpa [nodeOKb] using hnd
      show stripTag t.tagName (s ++ renderDoc rest) = renderDoc (removeBlocks t (.keep s :: rest))
      rw [stripTag_emit t.tagName s _ hsafe, ih hrest]
      simp [removeBlocks, renderDoc, Node.render]
    | blk u mid =>
      by_cases hut : u = t
      · subst hut
        have hboth := hnd
        simp [nodeOKb] at hboth
        have hmid : chunkSafe eqCI (closePat u.tagName) mid = true := hboth.1
        have hhd : midHeadOk mid = true := hboth.2
        show stripTag u.tagName
            ((openPat u.tagName ++ (mid ++ closePat u.tagName)) ++ renderDoc rest) =
          renderDoc (removeBlocks u (.blk u mid :: rest))
        have hassoc : (openPat u.tagName ++ (mid ++ closePat u.tagName)) ++ renderDoc rest =
            openPat u.tagName ++ (mid ++ (closePat u.tagName ++ renderDoc rest)) := by
          simp [List.append_assoc]
        rw [hassoc, stripTag_block u.tagName mid (renderDoc rest) hmid hhd, ih hrest]
        simp [removeBlocks]
      · have hmid : chunkSafe eqCI (openPat t.tagName) mid = true := by
          have := hnd
          simp [nodeOKb, hut] at this
          exact this
        have hsafe : chunkSafe eqCI (openPat t.tagName)
            (openPat u.tagName ++ (mid ++ closePat u.tagName)) = true := by
          apply chunkSafe_append _ _ _ _ (openPat_cross_safe t u hut)
          exact chunkSafe_append _ _ _ _ hmid (closePat_cross_safe t u)
        show stripTag t.tagName
            ((openPat u.tagName ++ (mid ++ closePat u.tagName)) ++ renderDoc rest) =
          renderDoc (removeBlocks t (.blk u mid :: rest))
        rw [stripTag_emit t.tagName _ _ hsafe, ih hrest]
        simp [removeBlocks, renderDoc, Node.render, hut]

/-- Stripping the three tags in the source's order removes every block. -/
theorem removeBlocks_all (doc : List Node) :
    removeBlocks .iframe (removeBlocks .style (removeBlocks .script doc)) =
      doc.filter Node.isKeep := by
  induction doc with
  | nil => rfl
  | cons nd rest ih =>
    cases nd with
    | keep s => simp [removeBlocks, Node.isKeep, List.filter] at ih ⊢; exact ih
    | blk u mid =>
      cases u <;> simp [removeBlocks, Node.isKeep, List.filter] at ih ⊢ <;> exact ih

/-- C7, as amended: on captured markup in which scripts, styles and inline
frames appear exactly as complete serialized blocks — no opening pattern of a
stripped tag starts (even partially, at a segment's end) inside kept markup
or inside another block's interior, and no block interior contains the
closing tag of its own kind — the clean-up removes all script blocks, style
blocks, and inline frames, structurally, block by block, and preserves every
other segment of the markup verbatim.  The unrestricted claim fails on
serialized markup violating these conditions (see the counterexample below). -/
theorem c7_sanitize_structural_removal (doc : List Node)
    (h1 : docOK .script doc)
    (h2 : docOK .style (removeBlocks .script doc))
    (h3 : docOK .iframe (removeBlocks .style (removeBlocks .script doc))) :
    sanitizeContent (renderDoc doc) = renderDoc (doc.filter Node.isKeep) := by
  unfold sanitizeContent
  rw [show ("script".data) = DisTag.script.tagName from rfl,
      show ("style".data) = DisTag.style.tagName from rfl,
      show ("iframe".data) = DisTag.iframe.tagName from rfl]
  rw [stripTag_removes .script doc h1]
  rw [stripTag_removes .style _ h2]
  rw [stripTag_removes .iframe _ h3]
  exact congrArg renderDoc (removeBlocks_all doc)

/-- Witness for C7: a fragment with kept paragraphs, a script block, a style
block and an inline frame. -/
theorem c7_witness :
    (docOK .script
        [Node.keep ("<p>Hello <em>dear</em> reader.</p>".data),
         Node.blk .script (" type=\"text/javascript\">alert(1);".data),
         Node.keep ("<p>Chapter one.</p>".data),
         Node.blk .style (">p .x .y ,".data),
         Node.blk .iframe (" src=\"ad\">".data),
         Node.keep ("<p>The End.</p>".data)] ∧
      sanitizeContent (renderDoc
        [Node.keep ("<p>Hello <em>dear</em> reader.</p>".data),
         Node.blk .script (" type=\"text/javascript\">alert(1);".data),
         Node.keep ("<p>Chapter one.</p>".data),
         Node.blk .style (">p .x .y ,".data),
         Node.blk .iframe (" src=\"ad\">".data),
         Node.keep ("<p>The End.</p>".data)]) =
        renderDoc ([Node.keep ("<p>Hello <em>dear</em> reader.</p>".data),
         Node.blk .script (" type=\"text/javascript\">alert(1);".data),
         Node.keep ("<p>Chapter one.</p>".data),
         Node.blk .style (">p .x .y ,".data),
         Node.blk .iframe (" src=\"ad\">".data),
         Node.keep ("<p>The End.</p>".data)].filter Node.isKeep)) :=
  ⟨by decide, c7_sanitize_structural_removal _ (by decide) (by decide) (by decide)⟩

/-- C7 counterexample: the claim as universally stated is false of the code.
On the serialized body `<style><script></style><p>Hi</p><script>x</script>` —
a style element whose raw text contains an opening script tag, followed by a
kept paragraph and a real script block — the script pass's regex matches from
the `<script>` inside the style element's text through the final closing tag,
so the clean-up returns `<style>`: the kept paragraph `<p>Hi</p>` is deleted
and a dangling style fragment survives, whereas structural removal of the
script and style blocks would return exactly `<p>Hi</p>`. -/
theorem c7_counterexample :
    sanitizeContent (renderDoc
        [Node.blk .style ("><script>".data), Node.keep ("<p>Hi</p>".data),
         Node.blk .script (">x".data)]) = "<style>".data ∧
    sanitizeContent (renderDoc
        [Node.blk .style ("><script>".data), Node.keep ("<p>Hi</p>".data),
         Node.blk .script (">x".data)]) ≠
      renderDoc ([Node.blk .style ("><script>".data), Node.keep ("<p>Hi</p>".data),
         Node.blk .script (">x".data)].filter Node.isKeep) := by
  constructor
  · decide
  · decide

/-! ## The mimetype entry (claim C4) -/

/-- C4: whatever the input, the first entry of the produced archive is named
`mimetype`, contains the literal `application/epub+zip` string, and is passed
to the archive writer with the explicit STORE (no compression) option. -/
theorem c4_mimetype_first_uncompressed (title : List Char) (chapters : List Chapter)
    (now1 now2 : Nat) :
    (createEpub title chapters now1 now2).head? =
      some ⟨"mimetype".data, "application/epub+zip".data, some ("STORE".data)⟩ := rfl

/-! ## Chapter discovery (claim C5) -/

/-- C5: on a series page, `discover` yields one ChapterRef per `.ser-ttl a`
link, in document order, titled with the link's trimmed text; every produced
url starts with `http` — link targets not starting with `http` are resolved
against the site's canonical origin.  On a non-series page it yields exactly
one ChapterRef whose url is the input url, titled with the page's trimmed `h1`
text, or the default placeholder when there is no `h1`. -/
theorem c5_discover_chapters (url : List Char) :
    (∀ (links : List SeriesLink) (h1v : Option (List Char)), links ≠ [] →
       fetchChapters url ⟨links, h1v⟩ =
           links.map (fun l => ⟨jsTrim l.text, resolveHref l.href⟩) ∧
         (∀ r ∈ fetchChapters url ⟨links, h1v⟩, startsWithX ("http".data) r.url = true) ∧
         (∀ l ∈ links, startsWithX ("http".data) l.href = false →
            resolveHref l.href = "https://www.literotica.com".data ++ l.href)) ∧
    (∀ t, fetchChapters url ⟨[], some t⟩ = [⟨jsTrim t, url⟩]) ∧
    fetchChapters url ⟨[], none⟩ = [⟨"Untitled Story".data, url⟩] := by
  refine ⟨?_, fun t => rfl, rfl⟩
  intro links h1v hne
  have hlen : links.length > 0 := List.length_pos.2 hne
  refine ⟨by simp [fetchChapters, hlen], ?_, ?_⟩
  · intro r hr
    simp [fetchChapters, hlen] at hr
    obtain ⟨l, _, rfl⟩ := hr
    by_cases habs : startsWithX ("http".data) l.href = true
    · simpa [resolveHref, habs] using habs
    · have habs' : startsWithX ("http".data) l.href = false := by
        cases hx : startsWithX ("http".data) l.href
        · rfl
        · exact absurd hx habs
      simp only [resolveHref, habs', Bool.false_eq_true, if_false]
      simp [startsWithX, matchBy, eqX, List.cons_append]
  · intro l _ hrel
    simp [resolveHref, hrel]

/-- Witness for C5: a two-link series page with one absolute and one relative
target. -/
theorem c5_witness :
    fetchChapters ("https://www.literotica.com/series/x".data)
        ⟨[⟨"https://www.literotica.com/s/ch-1".data, " Ch 1 ".data⟩,
          ⟨"/s/ch-2".data, "Ch 2".data⟩], none⟩ =
      [⟨"Ch 1".data, "https://www.literotica.com/s/ch-1".data⟩,
       ⟨"Ch 2".data, "https://www.literotica.com/s/ch-2".data⟩] := by
  rw [((c5_discover_chapters ("https://www.literotica.com/series/x".data)).1
    [⟨"https://www.literotica.com/s/ch-1".data, " Ch 1 ".data⟩,
     ⟨"/s/ch-2".data, "Ch 2".data⟩] none (by simp)).1]
  decide

/-! ## Content extraction and the fallback selector chain (claim C6) -/

/-- C6: the first matching selector of the fallback chain supplies the content
(in particular, a document matched only by the second selector is extracted,
not failed), and the extraction fails exactly when no selector matches, with
the error carrying the chapter position and the total chapter count. -/
theorem c6_selector_fallback_chain (n t : Nat) :
    (∀ (c : List Char) (p x : Option (List Char)),
       fetchChapterContent ⟨some c, p, x⟩ n t = .ok (sanitizeContent c)) ∧
    (∀ (c : List Char) (x : Option (List Char)),
       fetchChapterContent ⟨none, some c, x⟩ n t = .ok (sanitizeContent c)) ∧
    (∀ c : List Char,
       fetchChapterContent ⟨none, none, some c⟩ n t = .ok (sanitizeContent c)) ∧
    fetchChapterContent ⟨none, none, none⟩ n t =
      .error (chapterFailMsg n t (notFoundMsg n)) ∧
    (∀ doc : StoryDoc, isErr (fetchChapterContent doc n t) = true ↔
       doc.aaHt = none ∧ doc.panelArticle = none ∧ doc.storyBodyX = none) := by
  refine ⟨fun c p x => rfl, fun c x => rfl, fun c => rfl, rfl, ?_⟩
  intro doc
  obtain ⟨a, p, x⟩ := doc
  cases a <;> cases p <;> cases x <;> simp [fetchChapterContent, isErr]

/-! ## Title derivation and output filename (claim C9) -/

theorem takeBeforeSub_split (s0 : Char) (stl : List Char) :
    ∀ (pre post : List Char), chunkSafe eqX (s0 :: stl) pre = true →
      takeBeforeSub (s0 :: stl) (pre ++ ((s0 :: stl) ++ post)) = pre := by
  intro pre
  induction pre with
  | nil =>
    intro post _
    have h := matchBy_refl eqX eqX_refl (s0 :: stl) post
    simp only [List.nil_append, List.cons_append, takeBeforeSub]
    rw [List.cons_append] at h
    simp [h]
  | cons c pre' ih =>
    intro post hsafe
    have h0 : matchBy eqX (s0 :: stl) (((c :: pre') ++ ((s0 :: stl) ++ post)).drop 0) = none :=
      chunkSafe_no_match eqX (s0 :: stl) (c :: pre') _ hsafe 0 (by simp)
    simp only [List.drop_zero, List.cons_append] at h0
    simp only [List.cons_append, takeBeforeSub, List.append_eq, h0, Option.isSome_none,
      Bool.false_eq_true, if_false]
    exact congrArg (List.cons c) (ih post (chunkSafe_tail _ _ _ _ hsafe))

/-- C9: the project title is the segment of the first chapter's title before
the first ` - ` separator, with the default title substituted when that
segment is empty; in particular `My Story - Part 1` gives `My Story`, and the
delivered filename is the sanitized lower-cased title plus `.epub`, here
`my_story.epub`. -/
theorem c9_title_and_filename :
    (∀ (pre post : List Char), chunkSafe eqX (" - ".data) pre = true →
       projectTitle (pre ++ (" - ".data ++ post)) =
         (if pre = [] then "Literotica Story".data else pre)) ∧
    projectTitle ("My Story - Part 1".data) = "My Story".data ∧
    outputFilename ("My Story".data) = "my_story.epub".data := by
  refine ⟨?_, by decide, by decide⟩
  intro pre post hsafe
  have hsep : (" - ".data) = ' ' :: ('-' :: (' ' :: [])) := rfl
  unfold projectTitle
  rw [hsep] at hsafe ⊢
  rw [takeBeforeSub_split ' ' ('-' :: (' ' :: [])) pre post hsafe]

/-- Witness for C9: the concrete split of `My Story - Part 1`. -/
theorem c9_witness :
    chunkSafe eqX (" - ".data) ("My Story".data) = true ∧
    projectTitle ("My Story".data ++ (" - ".data ++ "Part 1".data)) = "My Story".data := by
  refine ⟨by decide, ?_⟩
  rw [c9_title_and_filename.1 ("My Story".data) ("Part 1".data) (by decide)]
  decide

/-! ## XML escaping (claim C8) -/

theorem replaceChar_append (t : Char) (rep : List Char) :
    ∀ (a b : List Char), replaceChar t rep (a ++ b) = replaceChar t rep a ++ replaceChar t rep b := by
  intro a b
  induction a with
  | nil => simp [replaceChar]
  | cons c a' ih => simp [replaceChar, ih, List.append_assoc]

theorem escapeXml_append (a b : List Char) :
    escapeXml (a ++ b) = escapeXml a ++ escapeXml b := by
  unfold escapeXml
  rw [replaceChar_append, replaceChar_append, replaceChar_append, replaceChar_append,
    replaceChar_append]

theorem escapeXml_single (c : Char) :
    escapeXml [c] =
      (if c = '&' then "&amp;".data
       else if c = '<' then "&lt;".data
       else if c = '>' then "&gt;".data
       else if c = '"' then "&quot;".data
       else if c = Char.ofNat 39 then "&apos;".data
       else [c]) := by
  by_cases h1 : c = '&'
  · subst h1; decide
  by_cases h2 : c = '<'
  · subst h2; decide
  by_cases h3 : c = '>'
  · subst h3; decide
  by_cases h4 : c = '"'
  · subst h4; decide
  by_cases h5 : c = Char.ofNat 39
  · subst h5; decide
  simp only [h1, h2, h3, h4, h5, if_false]
  simp [escapeXml, replaceChar, h1, h2, h3, h4, h5]

theorem escapeXml_eq_spec : ∀ s : List Char, escapeXml s = escapeXmlSpec s := by
  intro s
  induction s with
  | nil => rfl
  | cons c cs ih =>
    have : (c :: cs) = [c] ++ cs := rfl
    rw [this, escapeXml_append, ih, escapeXml_single]
    simp [escapeXmlSpec]

set_option maxRecDepth 8000 in
/-- C8: the five sequential replacements of `escapeXml` escape exactly the
five reserved XML characters, character by character, with no double escaping
(the composition equals the single-pass specification); the title
`Foo & "Bar"` is embedded as `Foo &amp; &quot;Bar&quot;` in the chapter
document's title and heading and in the navigation label of `toc.ncx`. -/
theorem c8_xml_escaping :
    (∀ s : List Char, escapeXml s = escapeXmlSpec s) ∧
    escapeXml ("Foo & \"Bar\"".data) = "Foo &amp; &quot;Bar&quot;".data ∧
    containsSub ("<title>Foo &amp; &quot;Bar&quot;</title>".data)
      (chapterXhtml ⟨"Foo & \"Bar\"".data, "Once upon a time.".data⟩) = true ∧
    containsSub ("<h1>Foo &amp; &quot;Bar&quot;</h1>".data)
      (chapterXhtml ⟨"Foo & \"Bar\"".data, "Once upon a time.".data⟩) = true ∧
    containsSub ("<text>Foo &amp; &quot;Bar&quot;</text>".data)
      (tocNcx ("Doc".data) [⟨"Foo & \"Bar\"".data, "Once upon a time.".data⟩] 0) = true := by
  refine ⟨escapeXml_eq_spec, by decide, ?_, ?_, ?_⟩ <;> decide

/-! ## Reading structure back out of the generated XML (claims C3 and C10) -/

theorem extractAfter_nil (p0 : Char) (ptl : List Char) (stop : Char) :
    extractAfter p0 ptl stop [] = [] := by
  unfold extractAfter
  rfl

theorem extractAfter_cons_none (p0 : Char) (ptl : List Char) (stop : Char) (c : Char)
    (cs : List Char) (h : matchBy eqX (p0 :: ptl) (c :: cs) = none) :
    extractAfter p0 ptl stop (c :: cs) = extractAfter p0 ptl stop cs := by
  conv_lhs => unfold extractAfter
  split
  · rename_i rest heq
    rw [heq] at h
    exact absurd h (by simp)
  · rfl

theorem extractAfter_cons_some (p0 : Char) (ptl : List Char) (stop : Char) (c : Char)
    (cs rest : List Char) (h : matchBy eqX (p0 :: ptl) (c :: cs) = some rest) :
    extractAfter p0 ptl stop (c :: cs) =
      takeUntilChar stop rest :: extractAfter p0 ptl stop rest := by
  conv_lhs => unfold extractAfter
  split
  · rename_i rest' heq
    rw [heq] at h
    have : rest' = rest := by injection h
    rw [this]
  · rename_i heq
    rw [heq] at h
    exact absurd h (by simp)

/-- A chunk in which the pattern cannot start is skipped without extracting. -/
theorem extractAfter_skip (p0 : Char) (ptl : List Char) (stop : Char) :
    ∀ (a b : List Char), chunkSafe eqX (p0 :: ptl) a = true →
      extractAfter p0 ptl stop (a ++ b) = extractAfter p0 ptl stop b := by
  intro a
  induction a with
  | nil => intro b _; simp
  | cons c a' ih =>
    intro b hsafe
    have h0 : matchBy eqX (p0 :: ptl) (((c :: a') ++ b).drop 0) = none :=
      chunkSafe_no_match eqX (p0 :: ptl) (c :: a') b hsafe 0 (by simp)
    simp only [List.drop_zero, List.cons_append] at h0
    rw [List.cons_append, extractAfter_cons_none _ _ _ _ _ h0]
    exact ih b (chunkSafe_tail _ _ _ _ hsafe)

/-- At an occurrence of the pattern, the field up to `stop` is extracted and
scanning resumes right after the pattern. -/
theorem extractAfter_hit (p0 : Char) (ptl : List Char) (stop : Char) (rest : List Char) :
    extractAfter p0 ptl stop ((p0 :: ptl) ++ rest) =
      takeUntilChar stop rest :: extractAfter p0 ptl stop rest := by
  have h := matchBy_refl eqX eqX_refl (p0 :: ptl) rest
  rw [List.cons_append] at h ⊢
  exact extractAfter_cons_some p0 ptl stop p0 (ptl ++ rest) rest h

theorem takeUntilChar_exact (stop : Char) :
    ∀ (a b : List Char), stop ∉ a → takeUntilChar stop (a ++ (stop :: b)) = a := by
  intro a
  induction a with
  | nil => intro b _; simp [takeUntilChar]
  | cons c a' ih =>
    intro b hmem
    have hc : ¬(c = stop) := fun he => hmem (by simp [he])
    simp only [List.cons_append, takeUntilChar, hc, if_false]
    exact congrArg (List.cons c) (ih b (fun hx => hmem (List.mem_cons_of_mem c hx)))

/-! ### Characters appearing in digit strings and escaped titles -/

theorem digitChar_range (d : Nat) : 48 ≤ (digitChar d).toNat ∧ (digitChar d).toNat ≤ 57 := by
  unfold digitChar
  split_ifs <;> decide

theorem natDigitsGo_mem :
    ∀ (fuel n : Nat) (acc : List Char) (c : Char), c ∈ natDigitsGo fuel n acc →
      (48 ≤ c.toNat ∧ c.toNat ≤ 57) ∨ c ∈ acc := by
  intro fuel
  induction fuel with
  | zero => intro n acc c h; exact Or.inr h
  | succ fuel ih =>
    intro n acc c h
    simp only [natDigitsGo] at h
    by_cases hn : n < 10
    · rw [if_pos hn] at h
      rcases List.mem_cons.1 h with h1 | h2
      · exact Or.inl (h1 ▸ digitChar_range n)
      · exact Or.inr h2
    · rw [if_neg hn] at h
      rcases ih (n / 10) (digitChar (n % 10) :: acc) c h with h1 | h2
      · exact Or.inl h1
      · rcases List.mem_cons.1 h2 with h3 | h4
        · exact Or.inl (h3 ▸ digitChar_range (n % 10))
        · exact Or.inr h4

theorem natDigits_mem (n : Nat) (c : Char) (h : c ∈ natDigits n) :
    48 ≤ c.toNat ∧ c.toNat ≤ 57 := by
  rcases natDigitsGo_mem (n + 1) n [] c h with h1 | h2
  · exact h1
  · simp at h2

theorem lt_not_mem_natDigits (n : Nat) : '<' ∉ natDigits n := by
  intro h
  exact absurd (natDigits_mem n '<' h) (by decide)

theorem quot_not_mem_natDigits (n : Nat) : '"' ∉ natDigits n := by
  intro h
  exact absurd (natDigits_mem n '"' h) (by decide)

theorem escapeXmlSpec_not_mem (c : Char) (hc1 : c ∉ ("&amp;".data : List Char))
    (hc2 : c ∉ ("&lt;".data : List Char)) (hc3 : c ∉ ("&gt;".data : List Char))
    (hc4 : c ∉ ("&quot;".data : List Char)) (hc5 : c ∉ ("&apos;".data : List Char))
    (hres : c = '&' ∨ c = '<' ∨ c = '>' ∨ c = '"' ∨ c = Char.ofNat 39) :
    ∀ s : List Char, c ∉ escapeXmlSpec s := by
  intro s
  induction s with
  | nil => simp [escapeXmlSpec]
  | cons d ds ih =>
    simp only [escapeXmlSpec]
    intro hmem
    rcases List.mem_append.1 hmem with h1 | h2
    · by_cases e1 : d = '&'
      · exact hc1 (by simpa [e1] using h1)
      by_cases e2 : d = '<'
      · exact hc2 (by simpa [e1, e2] using h1)
      by_cases e3 : d = '>'
      · exact hc3 (by simpa [e1, e2, e3] using h1)
      by_cases e4 : d = '"'
      · exact hc4 (by simpa [e1, e2, e3, e4] using h1)
      by_cases e5 : d = Char.ofNat 39
      · exact hc5 (by simpa [e1, e2, e3, e4, e5] using h1)
      · simp only [e1, e2, e3, e4, e5, if_false] at h1
        have : c = d := by simpa using h1
        subst this
        rcases hres with h | h | h | h | h <;> exact absurd h (by assumption)
    · exact ih h2

theorem lt_not_mem_escapeXml (s : List Char) : '<' ∉ escapeXml s := by
  rw [escapeXml_eq_spec]
  exact escapeXmlSpec_not_mem '<' (by decide) (by decide) (by decide) (by decide) (by decide)
    (by right; left; rfl) s

theorem quot_not_mem_escapeXml (s : List Char) : '"' ∉ escapeXml s := by
  rw [escapeXml_eq_spec]
  exact escapeXmlSpec_not_mem '"' (by decide) (by decide) (by decide) (by decide) (by decide)
    (by right; right; right; left; rfl) s

/-! ### Safety of whole joined blocks -/

theorem chunkSafe_join (eqc : Char → Char → Bool) (p0 : Char) (ptl : List Char)
    (hnl : eqc p0 '\n' = false) :
    ∀ lines : List (List Char),
      (∀ l ∈ lines, chunkSafe eqc (p0 :: ptl) l = true) →
      chunkSafe eqc (p0 :: ptl) (joinNl lines) = true := by
  intro lines
  induction lines with
  | nil => intro _; exact chunkSafe_nil _ _
  | cons x r ih =>
    intro h
    cases r with
    | nil => exact h x (by simp [joinNl])
    | cons y r' =>
      show chunkSafe eqc (p0 :: ptl) (x ++ '\n' :: joinNl (y :: r')) = true
      apply chunkSafe_append _ _ _ _ (h x (by simp))
      have hsingle : chunkSafe eqc (p0 :: ptl) ['\n'] = true :=
        chunkSafe_of_head_neq eqc p0 ptl ['\n'] (by intro c hc; simp at hc; rw [hc]; exact hnl)
      have hrest := ih (fun l hl => h l (List.mem_cons_of_mem x hl))
      have := chunkSafe_append eqc (p0 :: ptl) ['\n'] (joinNl (y :: r')) hsingle hrest
      simpa using this

theorem not_mem_append {c : Char} {a b : List Char} (ha : c ∉ a) (hb : c ∉ b) :
    c ∉ a ++ b := by
  intro h
  rcases List.mem_append.1 h with h1 | h2
  · exact ha h1
  · exact hb h2

/-- `natDigits` never produces the empty list. -/
theorem natDigitsGo_acc_ne_nil :
    ∀ (fuel n : Nat) (acc : List Char), acc ≠ [] → natDigitsGo fuel n acc ≠ [] := by
  intro fuel
  induction fuel with
  | zero => intro n acc h; exact h
  | succ fuel ih =>
    intro n acc h
    simp only [natDigitsGo]
    by_cases hn : n < 10
    · simp [hn]
    · rw [if_neg hn]
      exact ih (n / 10) _ (by simp)

theorem natDigits_ne_nil (n : Nat) : natDigits n ≠ [] := by
  unfold natDigits natDigitsGo
  by_cases hn : n < 10
  · simp [hn]
  · rw [if_neg hn]
    exact natDigitsGo_acc_ne_nil n (n / 10) _ (by simp)

/-- A pattern whose next expected character is not a digit mismatches
immediately against a digit string. -/
theorem compatBy_digits_false (c0 : Char) (hc0 : c0.toNat < 48 ∨ 57 < c0.toNat)
    (ptl X : List Char) (m : Nat) :
    compatBy eqX (c0 :: ptl) (natDigits m ++ X) = false := by
  cases hD : natDigits m with
  | nil => exact absurd hD (natDigits_ne_nil m)
  | cons c D' =>
    have hc := natDigits_mem m c (by rw [hD]; exact List.mem_cons_self c D')
    have hne : eqX c0 c = false := by
      have : c0 ≠ c := by
        intro he
        subst he
        omega
      simp [eqX, this]
    simp [compatBy, hne]

/-! ### Extraction of the manifest item ids from `content.opf` -/

theorem extract_items_line (k : Nat) (cont : List Char) :
    extractAfter '<' ("item id=\"".data) '"' (itemLine k ++ cont) =
      ("chapter".data ++ natDigits (k + 1)) ::
        extractAfter '<' ("item id=\"".data) '"' cont := by
  have hsplit : itemLine k ++ cont =
      "    ".data ++ (('<' :: ("item id=\"".data)) ++ ("chapter".data ++ (natDigits (k + 1) ++
        ('"' :: (" href=\"chapter".data ++ (natDigits (k + 1) ++
          (".xhtml\" media-type=\"application/xhtml+xml\"/>".data ++ cont))))))) := by
    unfold itemLine
    rw [show ("    <item id=\"chapter".data : List Char) =
      "    ".data ++ ('<' :: ("item id=\"".data ++ "chapter".data)) from by decide]
    rw [show ("\" href=\"chapter".data : List Char) = '"' :: " href=\"chapter".data from by decide]
    simp [List.append_assoc]
  rw [hsplit]
  rw [extractAfter_skip '<' ("item id=\"".data) '"' ("    ".data) _ (by decide)]
  rw [extractAfter_hit]
  congr 1
  · rw [show "chapter".data ++ (natDigits (k + 1) ++ ('"' :: (" href=\"chapter".data ++
        (natDigits (k + 1) ++ (".xhtml\" media-type=\"application/xhtml+xml\"/>".data ++ cont))))) =
      ("chapter".data ++ natDigits (k + 1)) ++ ('"' :: (" href=\"chapter".data ++
        (natDigits (k + 1) ++ (".xhtml\" media-type=\"application/xhtml+xml\"/>".data ++ cont))))
      from by simp [List.append_assoc]]
    exact takeUntilChar_exact '"' _ _
      (not_mem_append (by decide) (quot_not_mem_natDigits (k + 1)))
  · rw [extractAfter_skip '<' ("item id=\"".data) '"' ("chapter".data) _ (by decide)]
    rw [extractAfter_skip '<' ("item id=\"".data) '"' (natDigits (k + 1)) _
      (chunkSafeX_not_mem '<' _ _ (lt_not_mem_natDigits (k + 1)))]
    rw [← List.cons_append]
    rw [extractAfter_skip '<' ("item id=\"".data) '"' ('"' :: " href=\"chapter".data) _ (by decide)]
    rw [extractAfter_skip '<' ("item id=\"".data) '"' (natDigits (k + 1)) _
      (chunkSafeX_not_mem '<' _ _ (lt_not_mem_natDigits (k + 1)))]
    rw [extractAfter_skip '<' ("item id=\"".data) '"'
      (".xhtml\" media-type=\"application/xhtml+xml\"/>".data) _ (by decide)]

theorem extract_items_block :
    ∀ (chs : List Chapter) (k : Nat) (cont : List Char),
      extractAfter '<' ("item id=\"".data) '"'
          (joinNl (mapWithIndex (fun i _ => itemLine i) k chs) ++ cont) =
        mapWithIndex (fun i _ => "chapter".data ++ natDigits (i + 1)) k chs ++
          extractAfter '<' ("item id=\"".data) '"' cont := by
  intro chs
  induction chs with
  | nil => intro k cont; simp [mapWithIndex, joinNl]
  | cons ch rest ih =>
    intro k cont
    cases rest with
    | nil =>
      show extractAfter '<' ("item id=\"".data) '"' (itemLine k ++ cont) = _
      rw [extract_items_line k cont]
      simp [mapWithIndex]
    | cons ch2 rest2 =>
      show extractAfter '<' ("item id=\"".data) '"'
          ((itemLine k ++ '\n' :: joinNl (mapWithIndex (fun i _ => itemLine i) (k + 1) (ch2 :: rest2))) ++ cont) = _
      rw [List.append_assoc, List.cons_append, extract_items_line k _]
      rw [show ('\n' :: (joinNl (mapWithIndex (fun i _ => itemLine i) (k + 1) (ch2 :: rest2)) ++ cont)) =
        ['\n'] ++ (joinNl (mapWithIndex (fun i _ => itemLine i) (k + 1) (ch2 :: rest2)) ++ cont) from rfl]
      rw [extractAfter_skip '<' ("item id=\"".data) '"' ['\n'] _ (by decide)]
      rw [ih (k + 1) cont]
      simp [mapWithIndex]

/-! ### Extraction of the manifest hrefs from `content.opf` -/

theorem extract_href_line (k : Nat) (cont : List Char) :
    extractAfter '"' (" href=\"".data) '"' (itemLine k ++ cont) =
      ("chapter".data ++ (natDigits (k + 1) ++ ".xhtml".data)) ::
        extractAfter '"' (" href=\"".data) '"' cont := by
  have hsplit : itemLine k ++ cont =
      "    <item id=\"chapter".data ++ (natDigits (k + 1) ++
        (('"' :: (" href=\"".data)) ++ ("chapter".data ++ (natDigits (k + 1) ++
          (".xhtml".data ++ ('"' :: (" media-type=\"application/xhtml+xml\"/>".data ++ cont))))))) := by
    unfold itemLine
    rw [show ("\" href=\"chapter".data : List Char) =
      ('"' :: " href=\"".data) ++ "chapter".data from by decide]
    rw [show (".xhtml\" media-type=\"application/xhtml+xml\"/>".data : List Char) =
      ".xhtml".data ++ ('"' :: " media-type=\"application/xhtml+xml\"/>".data) from by decide]
    simp [List.append_assoc]
  rw [hsplit]
  rw [extractAfter_skip '"' (" href=\"".data) '"' ("    <item id=\"chapter".data) _ (by decide)]
  rw [extractAfter_skip '"' (" href=\"".data) '"' (natDigits (k + 1)) _
    (chunkSafeX_not_mem '"' _ _ (quot_not_mem_natDigits (k + 1)))]
  rw [extractAfter_hit]
  congr 1
  · rw [show "chapter".data ++ (natDigits (k + 1) ++ (".xhtml".data ++
        ('"' :: (" media-type=\"application/xhtml+xml\"/>".data ++ cont)))) =
      ("chapter".data ++ (natDigits (k + 1) ++ ".xhtml".data)) ++
        ('"' :: (" media-type=\"application/xhtml+xml\"/>".data ++ cont))
      from by simp [List.append_assoc]]
    exact takeUntilChar_exact '"' _ _
      (not_mem_append (by decide)
        (not_mem_append (quot_not_mem_natDigits (k + 1)) (by decide)))
  · rw [extractAfter_skip '"' (" href=\"".data) '"' ("chapter".data) _ (by decide)]
    rw [extractAfter_skip '"' (" href=\"".data) '"' (natDigits (k + 1)) _
      (chunkSafeX_not_mem '"' _ _ (quot_not_mem_natDigits (k + 1)))]
    rw [extractAfter_skip '"' (" href=\"".data) '"' (".xhtml".data) _ (by decide)]
    rw [← List.cons_append]
    rw [extractAfter_skip '"' (" href=\"".data) '"'
      ('"' :: " media-type=\"application/xhtml+xml\"/>".data) _ (by decide)]

theorem extract_href_block :
    ∀ (chs : List Chapter) (k : Nat) (cont : List Char),
      extractAfter '"' (" href=\"".data) '"'
          (joinNl (mapWithIndex (fun i _ => itemLine i) k chs) ++ cont) =
        mapWithIndex (fun i _ => "chapter".data ++ (natDigits (i + 1) ++ ".xhtml".data)) k chs ++
          extractAfter '"' (" href=\"".data) '"' cont := by
  intro chs
  induction chs with
  | nil => intro k cont; simp [mapWithIndex, joinNl]
  | cons ch rest ih =>
    intro k cont
    cases rest with
    | nil =>
      show extractAfter '"' (" href=\"".data) '"' (itemLine k ++ cont) = _
      rw [extract_href_line k cont]
      simp [mapWithIndex]
    | cons ch2 rest2 =>
      show extractAfter '"' (" href=\"".data) '"'
          ((itemLine k ++ '\n' :: joinNl (mapWithIndex (fun i _ => itemLine i) (k + 1) (ch2 :: rest2))) ++ cont) = _
      rw [List.append_assoc, List.cons_append, extract_href_line k _]
      rw [show ('\n' :: (joinNl (mapWithIndex (fun i _ => itemLine i) (k + 1) (ch2 :: rest2)) ++ cont)) =
        ['\n'] ++ (joinNl (mapWithIndex (fun i _ => itemLine i) (k + 1) (ch2 :: rest2)) ++ cont) from rfl]
      rw [extractAfter_skip '"' (" href=\"".data) '"' ['\n'] _ (by decide)]
      rw [ih (k + 1) cont]
      simp [mapWithIndex]

/-! ### Extraction of the spine idrefs from `content.opf` -/

theorem extract_spine_line (k : Nat) (cont : List Char) :
    extractAfter '<' ("itemref idref=\"".data) '"' (spineLine k ++ cont) =
      ("chapter".data ++ natDigits (k + 1)) ::
        extractAfter '<' ("itemref idref=\"".data) '"' cont := by
  have hsplit : spineLine k ++ cont =
      "    ".data ++ (('<' :: ("itemref idref=\"".data)) ++ ("chapter".data ++
        (natDigits (k + 1) ++ ('"' :: ("/>".data ++ cont))))) := by
    unfold spineLine
    rw [show ("    <itemref idref=\"chapter".data : List Char) =
      "    ".data ++ ('<' :: ("itemref idref=\"".data ++ "chapter".data)) from by decide]
    rw [show ("\"/>".data : List Char) = '"' :: "/>".data from by decide]
    simp [List.append_assoc]
  rw [hsplit]
  rw [extractAfter_skip '<' ("itemref idref=\"".data) '"' ("    ".data) _ (by decide)]
  rw [extractAfter_hit]
  congr 1
  · rw [show "chapter".data ++ (natDigits (k + 1) ++ ('"' :: ("/>".data ++ cont))) =
      ("chapter".data ++ natDigits (k + 1)) ++ ('"' :: ("/>".data ++ cont))
      from by simp [List.append_assoc]]
    exact takeUntilChar_exact '"' _ _
      (not_mem_append (by decide) (quot_not_mem_natDigits (k + 1)))
  · rw [extractAfter_skip '<' ("itemref idref=\"".data) '"' ("chapter".data) _ (by decide)]
    rw [extractAfter_skip '<' ("itemref idref=\"".data) '"' (natDigits (k + 1)) _
      (chunkSafeX_not_mem '<' _ _ (lt_not_mem_natDigits (k + 1)))]
    rw [← List.cons_append]
    rw [extractAfter_skip '<' ("itemref idref=\"".data) '"' ('"' :: "/>".data) _ (by decide)]

theorem extract_spine_block :
    ∀ (chs : List Chapter) (k : Nat) (cont : List Char),
      extractAfter '<' ("itemref idref=\"".data) '"'
          (joinNl (mapWithIndex (fun i _ => spineLine i) k chs) ++ cont) =
        mapWithIndex (fun i _ => "chapter".data ++ natDigits (i + 1)) k chs ++
          extractAfter '<' ("itemref idref=\"".data) '"' cont := by
  intro chs
  induction chs with
  | nil => intro k cont; simp [mapWithIndex, joinNl]
  | cons ch rest ih =>
    intro k cont
    cases rest with
    | nil =>
      show extractAfter '<' ("itemref idref=\"".data) '"' (spineLine k ++ cont) = _
      rw [extract_spine_line k cont]
      simp [mapWithIndex]
    | cons ch2 rest2 =>
      show extractAfter '<' ("itemref idref=\"".data) '"'
          ((spineLine k ++ '\n' :: joinNl (mapWithIndex (fun i _ => spineLine i) (k + 1) (ch2 :: rest2))) ++ cont) = _
      rw [List.append_assoc, List.cons_append, extract_spine_line k _]
      rw [show ('\n' :: (joinNl (mapWithIndex (fun i _ => spineLine i) (k + 1) (ch2 :: rest2)) ++ cont)) =
        ['\n'] ++ (joinNl (mapWithIndex (fun i _ => spineLine i) (k + 1) (ch2 :: rest2)) ++ cont) from rfl]
      rw [extractAfter_skip '<' ("itemref idref=\"".data) '"' ['\n'] _ (by decide)]
      rw [ih (k + 1) cont]
      simp [mapWithIndex]

/-- Regrouping helper: pull a cons-headed chunk out to expose the stop
character after a two-piece value. -/
theorem regroup_value2 (a b : List Char) (c : Char) (d y : List Char) :
    a ++ (b ++ ((c :: d) ++ y)) = (a ++ b) ++ (c :: (d ++ y)) := by
  simp [List.append_assoc]

/-- Regrouping helper: expose the stop character after a one-piece value. -/
theorem regroup_value1 (b : List Char) (c : Char) (d y : List Char) :
    b ++ ((c :: d) ++ y) = b ++ (c :: (d ++ y)) := by
  simp

/-! ### Extraction of the navPoint ids from `toc.ncx` -/

theorem extract_nav_line (k : Nat) (ch : Chapter) (cont : List Char) :
    extractAfter '<' ("navPoint id=\"".data) '"' (navPoint k ch ++ cont) =
      ("chapter".data ++ natDigits (k + 1)) ::
        extractAfter '<' ("navPoint id=\"".data) '"' cont := by
  have hsplit : navPoint k ch ++ cont =
      "    ".data ++ (('<' :: ("navPoint id=\"".data)) ++ ("chapter".data ++ (natDigits (k + 1) ++
        (('"' :: " playOrder=\"".data) ++ (natDigits (k + 1) ++
          ("\">\n      <navLabel>\n        <text>".data ++ (escapeXml ch.title ++
            ("</text>\n      </navLabel>\n      <content src=\"chapter".data ++ (natDigits (k + 1) ++
              (".xhtml\"/>\n    </navPoint>".data ++ cont)))))))))) := by
    unfold navPoint
    rw [show ("    <navPoint id=\"chapter".data : List Char) =
      "    ".data ++ ('<' :: ("navPoint id=\"".data ++ "chapter".data)) from by decide]
    rw [show ("\" playOrder=\"".data : List Char) = '"' :: " playOrder=\"".data from by decide]
    simp [List.append_assoc]
  rw [hsplit]
  rw [extractAfter_skip '<' ("navPoint id=\"".data) '"' ("    ".data) _ (by decide)]
  rw [extractAfter_hit]
  congr 1
  · rw [regroup_value2 ("chapter".data) (natDigits (k + 1)) '"' (" playOrder=\"".data) _]
    exact takeUntilChar_exact '"' _ _
      (not_mem_append (by decide) (quot_not_mem_natDigits (k + 1)))
  · rw [extractAfter_skip '<' ("navPoint id=\"".data) '"' ("chapter".data) _ (by decide)]
    rw [extractAfter_skip '<' ("navPoint id=\"".data) '"' (natDigits (k + 1)) _
      (chunkSafeX_not_mem '<' _ _ (lt_not_mem_natDigits (k + 1)))]
    rw [extractAfter_skip '<' ("navPoint id=\"".data) '"' ('"' :: " playOrder=\"".data) _ (by decide)]
    rw [extractAfter_skip '<' ("navPoint id=\"".data) '"' (natDigits (k + 1)) _
      (chunkSafeX_not_mem '<' _ _ (lt_not_mem_natDigits (k + 1)))]
    rw [extractAfter_skip '<' ("navPoint id=\"".data) '"'
      ("\">\n      <navLabel>\n        <text>".data) _ (by decide)]
    rw [extractAfter_skip '<' ("navPoint id=\"".data) '"' (escapeXml ch.title) _
      (chunkSafeX_not_mem '<' _ _ (lt_not_mem_escapeXml ch.title))]
    rw [extractAfter_skip '<' ("navPoint id=\"".data) '"'
      ("</text>\n      </navLabel>\n      <content src=\"chapter".data) _ (by decide)]
    rw [extractAfter_skip '<' ("navPoint id=\"".data) '"' (natDigits (k + 1)) _
      (chunkSafeX_not_mem '<' _ _ (lt_not_mem_natDigits (k + 1)))]
    rw [extractAfter_skip '<' ("navPoint id=\"".data) '"'
      (".xhtml\"/>\n    </navPoint>".data) _ (by decide)]

/-! ### Extraction of the play orders from `toc.ncx` -/

theorem extract_play_line (k : Nat) (ch : Chapter) (cont : List Char) :
    extractAfter '"' (" playOrder=\"".data) '"' (navPoint k ch ++ cont) =
      natDigits (k + 1) ::
        extractAfter '"' (" playOrder=\"".data) '"' cont := by
  have hsplit : navPoint k ch ++ cont =
      "    <navPoint id=\"chapter".data ++ (natDigits (k + 1) ++
        (('"' :: (" playOrder=\"".data)) ++ (natDigits (k + 1) ++
          (('"' :: ">\n      <navLabel>\n        <text>".data) ++ (escapeXml ch.title ++
            ("</text>\n      </navLabel>\n      <content src=\"chapter".data ++ (natDigits (k + 1) ++
              (".xhtml\"/>\n    </navPoint>".data ++ cont)))))))) := by
    unfold navPoint
    rw [show ("\" playOrder=\"".data : List Char) = '"' :: " playOrder=\"".data from by decide]
    rw [show ("\">\n      <navLabel>\n        <text>".data : List Char) =
      '"' :: ">\n      <navLabel>\n        <text>".data from by decide]
    simp [List.append_assoc]
  rw [hsplit]
  rw [extractAfter_skip '"' (" playOrder=\"".data) '"' ("    <navPoint id=\"chapter".data) _ (by decide)]
  rw [extractAfter_skip '"' (" playOrder=\"".data) '"' (natDigits (k + 1)) _
    (chunkSafeX_not_mem '"' _ _ (quot_not_mem_natDigits (k + 1)))]
  rw [extractAfter_hit]
  congr 1
  · rw [regroup_value1 (natDigits (k + 1)) '"' (">\n      <navLabel>\n        <text>".data) _]
    exact takeUntilChar_exact '"' _ _ (quot_not_mem_natDigits (k + 1))
  · rw [extractAfter_skip '"' (" playOrder=\"".data) '"' (natDigits (k + 1)) _
      (chunkSafeX_not_mem '"' _ _ (quot_not_mem_natDigits (k + 1)))]
    rw [extractAfter_skip '"' (" playOrder=\"".data) '"'
      ('"' :: ">\n      <navLabel>\n        <text>".data) _ (by decide)]
    rw [extractAfter_skip '"' (" playOrder=\"".data) '"' (escapeXml ch.title) _
      (chunkSafeX_not_mem '"' _ _ (quot_not_mem_escapeXml ch.title))]
    rw [extractAfter_skip '"' (" playOrder=\"".data) '"'
      ("</text>\n      </navLabel>\n      <content src=\"chapter".data) _ (by decide)]
    rw [extractAfter_skip '"' (" playOrder=\"".data) '"' (natDigits (k + 1)) _
      (chunkSafeX_not_mem '"' _ _ (quot_not_mem_natDigits (k + 1)))]
    rw [extractAfter_skip '"' (" playOrder=\"".data) '"'
      (".xhtml\"/>\n    </navPoint>".data) _ (by decide)]

/-! ### Extraction of the navPoint content sources from `toc.ncx` -/

theorem extract_src_line (k : Nat) (ch : Chapter) (cont : List Char) :
    extractAfter '<' ("content src=\"".data) '"' (navPoint k ch ++ cont) =
      ("chapter".data ++ (natDigits (k + 1) ++ ".xhtml".data)) ::
        extractAfter '<' ("content src=\"".data) '"' cont := by
  have hsplit : navPoint k ch ++ cont =
      "    <navPoint id=\"chapter".data ++ (natDigits (k + 1) ++
        ("\" playOrder=\"".data ++ (natDigits (k + 1) ++
          ("\">\n      <navLabel>\n        <text>".data ++ (escapeXml ch.title ++
            ("</text>\n      </navLabel>\n      ".data ++ (('<' :: ("content src=\"".data)) ++
              ("chapter".data ++ (natDigits (k + 1) ++ (".xhtml".data ++
                ('"' :: ("/>\n    </navPoint>".data ++ cont)))))))))))) := by
    unfold navPoint
    rw [show ("</text>\n      </navLabel>\n      <content src=\"chapter".data : List Char) =
      "</text>\n      </navLabel>\n      ".data ++
        ('<' :: ("content src=\"".data ++ "chapter".data)) from by decide]
    rw [show (".xhtml\"/>\n    </navPoint>".data : List Char) =
      ".xhtml".data ++ ('"' :: "/>\n    </navPoint>".data) from by decide]
    simp [List.append_assoc]
  rw [hsplit]
  rw [extractAfter_skip '<' ("content src=\"".data) '"' ("    <navPoint id=\"chapter".data) _ (by decide)]
  rw [extractAfter_skip '<' ("content src=\"".data) '"' (natDigits (k + 1)) _
    (chunkSafeX_not_mem '<' _ _ (lt_not_mem_natDigits (k + 1)))]
  rw [extractAfter_skip '<' ("content src=\"".data) '"' ("\" playOrder=\"".data) _ (by decide)]
  rw [extractAfter_skip '<' ("content src=\"".data) '"' (natDigits (k + 1)) _
    (chunkSafeX_not_mem '<' _ _ (lt_not_mem_natDigits (k + 1)))]
  rw [extractAfter_skip '<' ("content src=\"".data) '"'
    ("\">\n      <navLabel>\n        <text>".data) _ (by decide)]
  rw [extractAfter_skip '<' ("content src=\"".data) '"' (escapeXml ch.title) _
    (chunkSafeX_not_mem '<' _ _ (lt_not_mem_escapeXml ch.title))]
  rw [extractAfter_skip '<' ("content src=\"".data) '"'
    ("</text>\n      </navLabel>\n      ".data) _ (by decide)]
  rw [extractAfter_hit]
  congr 1
  · rw [show "chapter".data ++ (natDigits (k + 1) ++ (".xhtml".data ++
        ('"' :: ("/>\n    </navPoint>".data ++ cont)))) =
      ("chapter".data ++ (natDigits (k + 1) ++ ".xhtml".data)) ++
        ('"' :: ("/>\n    </navPoint>".data ++ cont))
      from by simp [List.append_assoc]]
    exact takeUntilChar_exact '"' _ _
      (not_mem_append (by decide)
        (not_mem_append (quot_not_mem_natDigits (k + 1)) (by decide)))
  · rw [extractAfter_skip '<' ("content src=\"".data) '"' ("chapter".data) _ (by decide)]
    rw [extractAfter_skip '<' ("content src=\"".data) '"' (natDigits (k + 1)) _
      (chunkSafeX_not_mem '<' _ _ (lt_not_mem_natDigits (k + 1)))]
    rw [extractAfter_skip '<' ("content src=\"".data) '"' (".xhtml".data) _ (by decide)]
    rw [← List.cons_append]
    rw [extractAfter_skip '<' ("content src=\"".data) '"'
      ('"' :: "/>\n    </navPoint>".data) _ (by decide)]

theorem extract_nav_block :
    ∀ (chs : List Chapter) (k : Nat) (cont : List Char),
      extractAfter '<' ("navPoint id=\"".data) '"'
          (joinNl (mapWithIndex navPoint k chs) ++ cont) =
        mapWithIndex (fun i _ => "chapter".data ++ natDigits (i + 1)) k chs ++
          extractAfter '<' ("navPoint id=\"".data) '"' cont := by
  intro chs
  induction chs with
  | nil => intro k cont; simp [mapWithIndex, joinNl]
  | cons ch rest ih =>
    intro k cont
    cases rest with
    | nil =>
      show extractAfter '<' ("navPoint id=\"".data) '"' (navPoint k ch ++ cont) = _
      rw [extract_nav_line k ch cont]
      simp [mapWithIndex]
    | cons ch2 rest2 =>
      show extractAfter '<' ("navPoint id=\"".data) '"'
          ((navPoint k ch ++ '\n' :: joinNl (mapWithIndex navPoint (k + 1) (ch2 :: rest2))) ++ cont) = _
      rw [List.append_assoc, List.cons_append, extract_nav_line k ch _]
      rw [show ('\n' :: (joinNl (mapWithIndex navPoint (k + 1) (ch2 :: rest2)) ++ cont)) =
        ['\n'] ++ (joinNl (mapWithIndex navPoint (k + 1) (ch2 :: rest2)) ++ cont) from rfl]
      rw [extractAfter_skip '<' ("navPoint id=\"".data) '"' ['\n'] _ (by decide)]
      rw [ih (k + 1) cont]
      simp [mapWithIndex]

theorem extract_play_block :
    ∀ (chs : List Chapter) (k : Nat) (cont : List Char),
      extractAfter '"' (" playOrder=\"".data) '"'
          (joinNl (mapWithIndex navPoint k chs) ++ cont) =
        mapWithIndex (fun i _ => natDigits (i + 1)) k chs ++
          extractAfter '"' (" playOrder=\"".data) '"' cont := by
  intro chs
  induction chs with
  | nil => intro k cont; simp [mapWithIndex, joinNl]
  | cons ch rest ih =>
    intro k cont
    cases rest with
    | nil =>
      show extractAfter '"' (" playOrder=\"".data) '"' (navPoint k ch ++ cont) = _
      rw [extract_play_line k ch cont]
      simp [mapWithIndex]
    | cons ch2 rest2 =>
      show extractAfter '"' (" playOrder=\"".data) '"'
          ((navPoint k ch ++ '\n' :: joinNl (mapWithIndex navPoint (k + 1) (ch2 :: rest2))) ++ cont) = _
      rw [List.append_assoc, List.cons_append, extract_play_line k ch _]
      rw [show ('\n' :: (joinNl (mapWithIndex navPoint (k + 1) (ch2 :: rest2)) ++ cont)) =
        ['\n'] ++ (joinNl (mapWithIndex navPoint (k + 1) (ch2 :: rest2)) ++ cont) from rfl]
      rw [extractAfter_skip '"' (" playOrder=\"".data) '"' ['\n'] _ (by decide)]
      rw [ih (k + 1) cont]
      simp [mapWithIndex]

theorem extract_src_block :
    ∀ (chs : List Chapter) (k : Nat) (cont : List Char),
      extractAfter '<' ("content src=\"".data) '"'
          (joinNl (mapWithIndex navPoint k chs) ++ cont) =
        mapWithIndex (fun i _ => "chapter".data ++ (natDigits (i + 1) ++ ".xhtml".data)) k chs ++
          extractAfter '<' ("content src=\"".data) '"' cont := by
  intro chs
  induction chs with
  | nil => intro k cont; simp [mapWithIndex, joinNl]
  | cons ch rest ih =>
    intro k cont
    cases rest with
    | nil =>
      show extractAfter '<' ("content src=\"".data) '"' (navPoint k ch ++ cont) = _
      rw [extract_src_line k ch cont]
      simp [mapWithIndex]
    | cons ch2 rest2 =>
      show extractAfter '<' ("content src=\"".data) '"'
          ((navPoint k ch ++ '\n' :: joinNl (mapWithIndex navPoint (k + 1) (ch2 :: rest2))) ++ cont) = _
      rw [List.append_assoc, List.cons_append, extract_src_line k ch _]
      rw [show ('\n' :: (joinNl (mapWithIndex navPoint (k + 1) (ch2 :: rest2)) ++ cont)) =
        ['\n'] ++ (joinNl (mapWithIndex navPoint (k + 1) (ch2 :: rest2)) ++ cont) from rfl]
      rw [extractAfter_skip '<' ("content src=\"".data) '"' ['\n'] _ (by decide)]
      rw [ih (k + 1) cont]
      simp [mapWithIndex]

/-! ### Safety of lines against the other extraction patterns -/

theorem itemLine_decomp (k : Nat) :
    itemLine k = "    <item id=\"chapter".data ++ (natDigits (k + 1) ++
      ("\" href=\"chapter".data ++ (natDigits (k + 1) ++
        ".xhtml\" media-type=\"application/xhtml+xml\"/>".data))) := by
  unfold itemLine
  simp [List.append_assoc]

theorem spineLine_decomp (k : Nat) :
    spineLine k = "    <itemref idref=\"chapter".data ++ (natDigits (k + 1) ++ "\"/>".data) := by
  unfold spineLine
  simp [List.append_assoc]

theorem itemLine_safe_spine (k : Nat) :
    chunkSafe eqX ('<' :: ("itemref idref=\"".data)) (itemLine k) = true := by
  rw [itemLine_decomp]
  refine chunkSafe_append _ _ _ _ (by decide) (chunkSafe_append _ _ _ _
    (chunkSafeX_not_mem '<' _ _ (lt_not_mem_natDigits (k + 1)))
    (chunkSafe_append _ _ _ _ (by decide) (chunkSafe_append _ _ _ _
      (chunkSafeX_not_mem '<' _ _ (lt_not_mem_natDigits (k + 1))) (by decide))))

theorem itemLine_safe_dcid (k : Nat) :
    chunkSafe eqX ('<' :: ("dc:identifier id=\"uid\">".data)) (itemLine k) = true := by
  rw [itemLine_decomp]
  refine chunkSafe_append _ _ _ _ (by decide) (chunkSafe_append _ _ _ _
    (chunkSafeX_not_mem '<' _ _ (lt_not_mem_natDigits (k + 1)))
    (chunkSafe_append _ _ _ _ (by decide) (chunkSafe_append _ _ _ _
      (chunkSafeX_not_mem '<' _ _ (lt_not_mem_natDigits (k + 1))) (by decide))))

theorem spineLine_safe_item (k : Nat) :
    chunkSafe eqX ('<' :: ("item id=\"".data)) (spineLine k) = true := by
  rw [spineLine_decomp]
  refine chunkSafe_append _ _ _ _ (by decide) (chunkSafe_append _ _ _ _
    (chunkSafeX_not_mem '<' _ _ (lt_not_mem_natDigits (k + 1))) (by decide))

theorem spineLine_safe_href (k : Nat) :
    chunkSafe eqX ('"' :: (" href=\"".data)) (spineLine k) = true := by
  rw [spineLine_decomp]
  refine chunkSafe_append _ _ _ _ (by decide) (chunkSafe_append _ _ _ _
    (chunkSafeX_not_mem '"' _ _ (quot_not_mem_natDigits (k + 1))) (by decide))

theorem spineLine_safe_dcid (k : Nat) :
    chunkSafe eqX ('<' :: ("dc:identifier id=\"uid\">".data)) (spineLine k) = true := by
  rw [spineLine_decomp]
  refine chunkSafe_append _ _ _ _ (by decide) (chunkSafe_append _ _ _ _
    (chunkSafeX_not_mem '<' _ _ (lt_not_mem_natDigits (k + 1))) (by decide))

/-- A quote immediately followed by a digit string cannot start an occurrence
of a pattern that expects a non-digit after the quote. -/
theorem chunkSafe_quote_digits (c1 : Char) (hc1 : c1.toNat < 48 ∨ 57 < c1.toNat)
    (ptl : List Char) (m : Nat) :
    chunkSafe eqX ('"' :: (c1 :: ptl)) ('"' :: natDigits m) = true := by
  rw [chunkSafe_iff]
  intro p hp
  cases p with
  | zero =>
    simp only [List.drop_zero]
    have hrest : compatBy eqX (c1 :: ptl) (natDigits m) = false := by
      have := compatBy_digits_false c1 hc1 ptl [] m
      simpa using this
    simp [compatBy, eqX, hrest]
  | succ p =>
    simp only [List.drop_succ_cons]
    have hp' : p < (natDigits m).length := by
      simp [List.length_cons] at hp
      omega
    cases hd : (natDigits m).drop p with
    | nil =>
      have := congrArg List.length hd
      simp [List.length_drop] at this
      omega
    | cons c cs =>
      have hc : c ∈ natDigits m :=
        List.drop_subset p (natDigits m) (by rw [hd]; exact List.mem_cons_self c cs)
      have hb := natDigits_mem m c hc
      have : eqX '"' c = false := by
        have : '"' ≠ c := by
          intro he
          rw [← he] at hb
          revert hb
          decide
        simp [eqX, this]
      simp [compatBy, this]

theorem navPoint_safe_uid (k : Nat) (ch : Chapter) :
    chunkSafe eqX ('"' :: ("dtb:uid\" content=\"".data)) (navPoint k ch) = true := by
  have hdecomp : navPoint k ch =
      "    <navPoint id=\"chapter".data ++ (natDigits (k + 1) ++
        (("\" playOrder=".data) ++ (('"' :: natDigits (k + 1)) ++
          ("\">\n      <navLabel>\n        <text>".data ++ (escapeXml ch.title ++
            ("</text>\n      </navLabel>\n      <content src=\"chapter".data ++
              (natDigits (k + 1) ++ ".xhtml\"/>\n    </navPoint>".data))))))) := by
    unfold navPoint
    rw [show ("\" playOrder=\"".data : List Char) =
      "\" playOrder=".data ++ ['"'] from by decide]
    simp [List.append_assoc]
  rw [hdecomp]
  refine chunkSafe_append _ _ _ _ (by decide) (chunkSafe_append _ _ _ _
    (chunkSafeX_not_mem '"' _ _ (quot_not_mem_natDigits (k + 1)))
    (chunkSafe_append _ _ _ _ (by decide) (chunkSafe_append _ _ _ _
      (chunkSafe_quote_digits 'd' (by decide) _ (k + 1))
      (chunkSafe_append _ _ _ _ (by decide) (chunkSafe_append _ _ _ _
        (chunkSafeX_not_mem '"' _ _ (quot_not_mem_escapeXml ch.title))
        (chunkSafe_append _ _ _ _ (by decide) (chunkSafe_append _ _ _ _
          (chunkSafeX_not_mem '"' _ _ (quot_not_mem_natDigits (k + 1))) (by decide))))))))

theorem mem_mapWithIndex {α : Type} (f : Nat → Chapter → α) :
    ∀ (k : Nat) (chs : List Chapter) (l : α), l ∈ mapWithIndex f k chs →
      ∃ i ch, l = f i ch := by
  intro k chs
  induction chs generalizing k with
  | nil => intro l h; simp [mapWithIndex] at h
  | cons c cs ih =>
    intro l h
    rcases List.mem_cons.1 h with h1 | h2
    · exact ⟨k, c, h1⟩
    · exact ih (k + 1) l h2

/-- A string in which the pattern cannot start yields no extractions at all. -/
theorem extractAfter_all_safe (p0 : Char) (ptl : List Char) (stop : Char) (a : List Char)
    (h : chunkSafe eqX (p0 :: ptl) a = true) : extractAfter p0 ptl stop a = [] := by
  have h2 := extractAfter_skip p0 ptl stop a [] h
  rw [List.append_nil] at h2
  rw [h2, extractAfter_nil]

/-! ### Whole-document extraction facts for `content.opf` -/

theorem opf_items (title : List Char) (chapters : List Chapter) (now1 : Nat) :
    extractAfter '<' ("item id=\"".data) '"' (contentOpf title chapters now1) =
      "ncx".data :: mapWithIndex (fun i _ => "chapter".data ++ natDigits (i + 1)) 0 chapters := by
  unfold contentOpf
  rw [show ("</dc:identifier>\n  </metadata>\n  <manifest>\n    <item id=\"ncx\" href=\"toc.ncx\" media-type=\"application/x-dtbncx+xml\"/>\n".data : List Char) =
    "</dc:identifier>\n  </metadata>\n  <manifest>\n    ".data ++
      (('<' :: ("item id=\"".data)) ++ ("ncx".data ++
        ('"' :: " href=\"toc.ncx\" media-type=\"application/x-dtbncx+xml\"/>\n".data)))
    from by decide]
  simp only [List.append_assoc]
  rw [extractAfter_skip '<' ("item id=\"".data) '"' _ _ (by decide)]
  rw [extractAfter_skip '<' ("item id=\"".data) '"' (escapeXml title) _
    (chunkSafeX_not_mem '<' _ _ (lt_not_mem_escapeXml title))]
  rw [extractAfter_skip '<' ("item id=\"".data) '"' _ _ (by decide)]
  rw [extractAfter_skip '<' ("item id=\"".data) '"' (natDigits now1) _
    (chunkSafeX_not_mem '<' _ _ (lt_not_mem_natDigits now1))]
  rw [extractAfter_skip '<' ("item id=\"".data) '"' _ _ (by decide)]
  rw [extractAfter_hit]
  congr 1
  rw [extractAfter_skip '<' ("item id=\"".data) '"' ("ncx".data) _ (by decide)]
  rw [extractAfter_skip '<' ("item id=\"".data) '"' _ _ (by decide)]
  rw [extract_items_block chapters 0 _]
  rw [extractAfter_skip '<' ("item id=\"".data) '"' _ _ (by decide)]
  rw [extractAfter_skip '<' ("item id=\"".data) '"'
    (joinNl (mapWithIndex (fun i _ => spineLine i) 0 chapters)) _
    (chunkSafe_join eqX '<' _ (by decide) _ (by
      intro l hl
      obtain ⟨i, ch, rfl⟩ := mem_mapWithIndex _ 0 chapters l hl
      exact spineLine_safe_item i))]
  rw [extractAfter_all_safe '<' ("item id=\"".data) '"' _ (by decide)]
  simp

theorem opf_hrefs (title : List Char) (chapters : List Chapter) (now1 : Nat) :
    extractAfter '"' (" href=\"".data) '"' (contentOpf title chapters now1) =
      "toc.ncx".data ::
        mapWithIndex (fun i _ => "chapter".data ++ (natDigits (i + 1) ++ ".xhtml".data)) 0 chapters := by
  unfold contentOpf
  rw [show ("</dc:identifier>\n  </metadata>\n  <manifest>\n    <item id=\"ncx\" href=\"toc.ncx\" media-type=\"application/x-dtbncx+xml\"/>\n".data : List Char) =
    "</dc:identifier>\n  </metadata>\n  <manifest>\n    <item id=\"ncx".data ++
      (('"' :: (" href=\"".data)) ++ ("toc.ncx".data ++
        ('"' :: " media-type=\"application/x-dtbncx+xml\"/>\n".data)))
    from by decide]
  simp only [List.append_assoc]
  rw [extractAfter_skip '"' (" href=\"".data) '"' _ _ (by decide)]
  rw [extractAfter_skip '"' (" href=\"".data) '"' (escapeXml title) _
    (chunkSafeX_not_mem '"' _ _ (quot_not_mem_escapeXml title))]
  rw [extractAfter_skip '"' (" href=\"".data) '"' _ _ (by decide)]
  rw [extractAfter_skip '"' (" href=\"".data) '"' (natDigits now1) _
    (chunkSafeX_not_mem '"' _ _ (quot_not_mem_natDigits now1))]
  rw [extractAfter_skip '"' (" href=\"".data) '"' _ _ (by decide)]
  rw [extractAfter_hit]
  congr 1
  rw [extractAfter_skip '"' (" href=\"".data) '"' ("toc.ncx".data) _ (by decide)]
  rw [extractAfter_skip '"' (" href=\"".data) '"' _ _ (by decide)]
  rw [extract_href_block chapters 0 _]
  rw [extractAfter_skip '"' (" href=\"".data) '"' _ _ (by decide)]
  rw [extractAfter_skip '"' (" href=\"".data) '"'
    (joinNl (mapWithIndex (fun i _ => spineLine i) 0 chapters)) _
    (chunkSafe_join eqX '"' _ (by decide) _ (by
      intro l hl
      obtain ⟨i, ch, rfl⟩ := mem_mapWithIndex _ 0 chapters l hl
      exact spineLine_safe_href i))]
  rw [extractAfter_all_safe '"' (" href=\"".data) '"' _ (by decide)]
  simp

theorem opf_spine (title : List Char) (chapters : List Chapter) (now1 : Nat) :
    extractAfter '<' ("itemref idref=\"".data) '"' (contentOpf title chapters now1) =
      mapWithIndex (fun i _ => "chapter".data ++ natDigits (i + 1)) 0 chapters := by
  unfold contentOpf
  simp only [List.append_assoc]
  rw [extractAfter_skip '<' ("itemref idref=\"".data) '"' _ _ (by decide)]
  rw [extractAfter_skip '<' ("itemref idref=\"".data) '"' (escapeXml title) _
    (chunkSafeX_not_mem '<' _ _ (lt_not_mem_escapeXml title))]
  rw [extractAfter_skip '<' ("itemref idref=\"".data) '"' _ _ (by decide)]
  rw [extractAfter_skip '<' ("itemref idref=\"".data) '"' (natDigits now1) _
    (chunkSafeX_not_mem '<' _ _ (lt_not_mem_natDigits now1))]
  rw [extractAfter_skip '<' ("itemref idref=\"".data) '"' _ _ (by decide)]
  rw [extractAfter_skip '<' ("itemref idref=\"".data) '"'
    (joinNl (mapWithIndex (fun i _ => itemLine i) 0 chapters)) _
    (chunkSafe_join eqX '<' _ (by decide) _ (by
      intro l hl
      obtain ⟨i, ch, rfl⟩ := mem_mapWithIndex _ 0 chapters l hl
      exact itemLine_safe_spine i))]
  rw [extractAfter_skip '<' ("itemref idref=\"".data) '"' _ _ (by decide)]
  rw [extract_spine_block chapters 0 _]
  rw [extractAfter_all_safe '<' ("itemref idref=\"".data) '"' _ (by decide)]
  simp

/-! ### Whole-document extraction facts for `toc.ncx` -/

theorem ncx_navs (title : List Char) (chapters : List Chapter) (now2 : Nat) :
    extractAfter '<' ("navPoint id=\"".data) '"' (tocNcx title chapters now2) =
      mapWithIndex (fun i _ => "chapter".data ++ natDigits (i + 1)) 0 chapters := by
  unfold tocNcx
  simp only [List.append_assoc]
  rw [extractAfter_skip '<' ("navPoint id=\"".data) '"' _ _ (by decide)]
  rw [extractAfter_skip '<' ("navPoint id=\"".data) '"' (natDigits now2) _
    (chunkSafeX_not_mem '<' _ _ (lt_not_mem_natDigits now2))]
  rw [extractAfter_skip '<' ("navPoint id=\"".data) '"' _ _ (by decide)]
  rw [extractAfter_skip '<' ("navPoint id=\"".data) '"' (escapeXml title) _
    (chunkSafeX_not_mem '<' _ _ (lt_not_mem_escapeXml title))]
  rw [extractAfter_skip '<' ("navPoint id=\"".data) '"' _ _ (by decide)]
  rw [extract_nav_block chapters 0 _]
  rw [extractAfter_all_safe '<' ("navPoint id=\"".data) '"' _ (by decide)]
  simp

theorem ncx_plays (title : List Char) (chapters : List Chapter) (now2 : Nat) :
    extractAfter '"' (" playOrder=\"".data) '"' (tocNcx title chapters now2) =
      mapWithIndex (fun i _ => natDigits (i + 1)) 0 chapters := by
  unfold tocNcx
  simp only [List.append_assoc]
  rw [extractAfter_skip '"' (" playOrder=\"".data) '"' _ _ (by decide)]
  rw [extractAfter_skip '"' (" playOrder=\"".data) '"' (natDigits now2) _
    (chunkSafeX_not_mem '"' _ _ (quot_not_mem_natDigits now2))]
  rw [extractAfter_skip '"' (" playOrder=\"".data) '"' _ _ (by decide)]
  rw [extractAfter_skip '"' (" playOrder=\"".data) '"' (escapeXml title) _
    (chunkSafeX_not_mem '"' _ _ (quot_not_mem_escapeXml title))]
  rw [extractAfter_skip '"' (" playOrder=\"".data) '"' _ _ (by decide)]
  rw [extract_play_block chapters 0 _]
  rw [extractAfter_all_safe '"' (" playOrder=\"".data) '"' _ (by decide)]
  simp

theorem ncx_srcs (title : List Char) (chapters : List Chapter) (now2 : Nat) :
    extractAfter '<' ("content src=\"".data) '"' (tocNcx title chapters now2) =
      mapWithIndex (fun i _ => "chapter".data ++ (natDigits (i + 1) ++ ".xhtml".data)) 0 chapters := by
  unfold tocNcx
  simp only [List.append_assoc]
  rw [extractAfter_skip '<' ("content src=\"".data) '"' _ _ (by decide)]
  rw [extractAfter_skip '<' ("content src=\"".data) '"' (natDigits now2) _
    (chunkSafeX_not_mem '<' _ _ (lt_not_mem_natDigits now2))]
  rw [extractAfter_skip '<' ("content src=\"".data) '"' _ _ (by decide)]
  rw [extractAfter_skip '<' ("content src=\"".data) '"' (escapeXml title) _
    (chunkSafeX_not_mem '<' _ _ (lt_not_mem_escapeXml title))]
  rw [extractAfter_skip '<' ("content src=\"".data) '"' _ _ (by decide)]
  rw [extract_src_block chapters 0 _]
  rw [extractAfter_all_safe '<' ("content src=\"".data) '"' _ (by decide)]
  simp

/-! ### The package identifier and the navigation uid (claim C10) -/

theorem opf_uid (title : List Char) (chapters : List Chapter) (now1 : Nat) :
    extractAfter '<' ("dc:identifier id=\"uid\">".data) '<' (contentOpf title chapters now1) =
      ["literotica-".data ++ natDigits now1] := by
  unfold contentOpf
  rw [show ("</dc:title>\n    <dc:creator>Literotica Author</dc:creator>\n    <dc:language>en</dc:language>\n    <dc:identifier id=\"uid\">literotica-".data : List Char) =
    "</dc:title>\n    <dc:creator>Literotica Author</dc:creator>\n    <dc:language>en</dc:language>\n    ".data ++
      (('<' :: ("dc:identifier id=\"uid\">".data)) ++ "literotica-".data) from by decide]
  rw [show ("</dc:identifier>\n  </metadata>\n  <manifest>\n    <item id=\"ncx\" href=\"toc.ncx\" media-type=\"application/x-dtbncx+xml\"/>\n".data : List Char) =
    '<' :: "/dc:identifier>\n  </metadata>\n  <manifest>\n    <item id=\"ncx\" href=\"toc.ncx\" media-type=\"application/x-dtbncx+xml\"/>\n".data
    from by decide]
  simp only [List.append_assoc]
  rw [extractAfter_skip '<' ("dc:identifier id=\"uid\">".data) '<' _ _ (by decide)]
  rw [extractAfter_skip '<' ("dc:identifier id=\"uid\">".data) '<' (escapeXml title) _
    (chunkSafeX_not_mem '<' _ _ (lt_not_mem_escapeXml title))]
  rw [extractAfter_skip '<' ("dc:identifier id=\"uid\">".data) '<' _ _ (by decide)]
  rw [extractAfter_hit]
  congr 1
  · rw [regroup_value2 ("literotica-".data) (natDigits now1) '<'
      ("/dc:identifier>\n  </metadata>\n  <manifest>\n    <item id=\"ncx\" href=\"toc.ncx\" media-type=\"application/x-dtbncx+xml\"/>\n".data) _]
    exact takeUntilChar_exact '<' _ _
      (not_mem_append (by decide) (lt_not_mem_natDigits now1))
  · rw [extractAfter_skip '<' ("dc:identifier id=\"uid\">".data) '<' ("literotica-".data) _ (by decide)]
    rw [extractAfter_skip '<' ("dc:identifier id=\"uid\">".data) '<' (natDigits now1) _
      (chunkSafeX_not_mem '<' _ _ (lt_not_mem_natDigits now1))]
    rw [extractAfter_skip '<' ("dc:identifier id=\"uid\">".data) '<' _ _ (by decide)]
    rw [extractAfter_skip '<' ("dc:identifier id=\"uid\">".data) '<'
      (joinNl (mapWithIndex (fun i _ => itemLine i) 0 chapters)) _
      (chunkSafe_join eqX '<' _ (by decide) _ (by
        intro l hl
        obtain ⟨i, ch, rfl⟩ := mem_mapWithIndex _ 0 chapters l hl
        exact itemLine_safe_dcid i))]
    rw [extractAfter_skip '<' ("dc:identifier id=\"uid\">".data) '<' _ _ (by decide)]
    rw [extractAfter_skip '<' ("dc:identifier id=\"uid\">".data) '<'
      (joinNl (mapWithIndex (fun i _ => spineLine i) 0 chapters)) _
      (chunkSafe_join eqX '<' _ (by decide) _ (by
        intro l hl
        obtain ⟨i, ch, rfl⟩ := mem_mapWithIndex _ 0 chapters l hl
        exact spineLine_safe_dcid i))]
    rw [extractAfter_all_safe '<' ("dc:identifier id=\"uid\">".data) '<' _ (by decide)]

theorem ncx_uid (title : List Char) (chapters : List Chapter) (now2 : Nat) :
    extractAfter '"' ("dtb:uid\" content=\"".data) '"' (tocNcx title chapters now2) =
      ["literotica-".data ++ natDigits now2] := by
  unfold tocNcx
  rw [show ("<?xml version=\"1.0\" encoding=\"UTF-8\"?>\n<ncx xmlns=\"http://www.daisy.org/z3986/2005/ncx/\" version=\"2005-1\">\n  <head>\n    <meta name=\"dtb:uid\" content=\"literotica-".data : List Char) =
    "<?xml version=\"1.0\" encoding=\"UTF-8\"?>\n<ncx xmlns=\"http://www.daisy.org/z3986/2005/ncx/\" version=\"2005-1\">\n  <head>\n    <meta name=".data ++
      (('"' :: ("dtb:uid\" content=\"".data)) ++ "literotica-".data) from by decide]
  rw [show ("\"/>\n    <meta name=\"dtb:depth\" content=\"1\"/>\n  </head>\n  <docTitle>\n    <text>".data : List Char) =
    '"' :: "/>\n    <meta name=\"dtb:depth\" content=\"1\"/>\n  </head>\n  <docTitle>\n    <text>".data
    from by decide]
  simp only [List.append_assoc]
  rw [extractAfter_skip '"' ("dtb:uid\" content=\"".data) '"' _ _ (by decide)]
  rw [extractAfter_hit]
  congr 1
  · rw [regroup_value2 ("literotica-".data) (natDigits now2) '"'
      ("/>\n    <meta name=\"dtb:depth\" content=\"1\"/>\n  </head>\n  <docTitle>\n    <text>".data) _]
    exact takeUntilChar_exact '"' _ _
      (not_mem_append (by decide) (quot_not_mem_natDigits now2))
  · rw [extractAfter_skip '"' ("dtb:uid\" content=\"".data) '"' ("literotica-".data) _ (by decide)]
    rw [extractAfter_skip '"' ("dtb:uid\" content=\"".data) '"' (natDigits now2) _
      (chunkSafeX_not_mem '"' _ _ (quot_not_mem_natDigits now2))]
    rw [extractAfter_skip '"' ("dtb:uid\" content=\"".data) '"' _ _ (by decide)]
    rw [extractAfter_skip '"' ("dtb:uid\" content=\"".data) '"' (escapeXml title) _
      (chunkSafeX_not_mem '"' _ _ (quot_not_mem_escapeXml title))]
    rw [extractAfter_skip '"' ("dtb:uid\" content=\"".data) '"' _ _ (by decide)]
    rw [extractAfter_skip '"' ("dtb:uid\" content=\"".data) '"'
      (joinNl (mapWithIndex navPoint 0 chapters)) _
      (chunkSafe_join eqX '"' _ (by decide) _ (by
        intro l hl
        obtain ⟨i, ch, rfl⟩ := mem_mapWithIndex _ 0 chapters l hl
        exact navPoint_safe_uid i ch))]
    rw [extractAfter_all_safe '"' ("dtb:uid\" content=\"".data) '"' _ (by decide)]

theorem mapWithIndex_map {α β : Type} (g : α → β) (f : Nat → Chapter → α) :
    ∀ (k : Nat) (chs : List Chapter),
      (mapWithIndex f k chs).map g = mapWithIndex (fun i c => g (f i c)) k chs := by
  intro k chs
  induction chs generalizing k with
  | nil => rfl
  | cons c cs ih => simp [mapWithIndex, ih]

/-- C3: for a chapter list of length N, the archive's entries are exactly the
mimetype, the container descriptor, the chapter documents `chapter1.xhtml` …
`chapterN.xhtml` (in input order), the package document and the navigation
map; the package document carries exactly one manifest item and one spine
reference per chapter document (after the navigation-map item), one-to-one,
numbered contiguously from 1 and in input order; and the navigation map has
one navPoint per chapter, in spine order, whose playOrder equals its 1-based
position and which links to its chapter document. -/
theorem c3_archive_structure (title : List Char) (chapters : List Chapter) (now1 now2 : Nat) :
    (createEpub title chapters now1 now2).map ZipEntry.name =
      "mimetype".data :: ("META-INF/container.xml".data ::
        (mapWithIndex (fun i _ => "OEBPS/chapter".data ++ natDigits (i + 1) ++ ".xhtml".data) 0 chapters ++
          ["OEBPS/content.opf".data, "OEBPS/toc.ncx".data])) ∧
    extractAfter '<' ("item id=\"".data) '"' (contentOpf title chapters now1) =
      "ncx".data :: mapWithIndex (fun i _ => "chapter".data ++ natDigits (i + 1)) 0 chapters ∧
    extractAfter '"' (" href=\"".data) '"' (contentOpf title chapters now1) =
      "toc.ncx".data ::
        mapWithIndex (fun i _ => "chapter".data ++ (natDigits (i + 1) ++ ".xhtml".data)) 0 chapters ∧
    extractAfter '<' ("itemref idref=\"".data) '"' (contentOpf title chapters now1) =
      mapWithIndex (fun i _ => "chapter".data ++ natDigits (i + 1)) 0 chapters ∧
    extractAfter '<' ("navPoint id=\"".data) '"' (tocNcx title chapters now2) =
      mapWithIndex (fun i _ => "chapter".data ++ natDigits (i + 1)) 0 chapters ∧
    extractAfter '"' (" playOrder=\"".data) '"' (tocNcx title chapters now2) =
      mapWithIndex (fun i _ => natDigits (i + 1)) 0 chapters ∧
    extractAfter '<' ("content src=\"".data) '"' (tocNcx title chapters now2) =
      mapWithIndex (fun i _ => "chapter".data ++ (natDigits (i + 1) ++ ".xhtml".data)) 0 chapters := by
  refine ⟨?_, opf_items title chapters now1, opf_hrefs title chapters now1,
    opf_spine title chapters now1, ncx_navs title chapters now2,
    ncx_plays title chapters now2, ncx_srcs title chapters now2⟩
  simp [createEpub, List.map_append, mapWithIndex_map]

/-- C10: the package identifier embedded in `content.opf` carries the first
clock read while the uid in `toc.ncx` carries the second clock read of the
same run; when the millisecond clock ticks between the two `Date.now()` calls
(here 1000 then 1001) the two identifiers of the produced archive differ. -/
theorem c10_uid_clock_skew :
    extractAfter '<' ("dc:identifier id=\"uid\">".data) '<'
        (contentOpf ("T".data) [] 1000) = ["literotica-1000".data] ∧
    extractAfter '"' ("dtb:uid\" content=\"".data) '"'
        (tocNcx ("T".data) [] 1001) = ["literotica-1001".data] ∧
    ∃ eopf ∈ createEpub ("T".data) [] 1000 1001,
      ∃ encx ∈ createEpub ("T".data) [] 1000 1001,
        eopf.name = "OEBPS/content.opf".data ∧ encx.name = "OEBPS/toc.ncx".data ∧
        extractAfter '<' ("dc:identifier id=\"uid\">".data) '<' eopf.body ≠
          extractAfter '"' ("dtb:uid\" content=\"".data) '"' encx.body := by
  have h1 := opf_uid ("T".data) [] 1000
  have h2 := ncx_uid ("T".data) [] 1001
  refine ⟨by rw [h1]; decide, by rw [h2]; decide, ?_⟩
  have hmem1 : (⟨"OEBPS/content.opf".data, contentOpf ("T".data) [] 1000, none⟩ : ZipEntry) ∈
      createEpub ("T".data) [] 1000 1001 := by
    simp [createEpub, mapWithIndex]
  have hmem2 : (⟨"OEBPS/toc.ncx".data, tocNcx ("T".data) [] 1001, none⟩ : ZipEntry) ∈
      createEpub ("T".data) [] 1000 1001 := by
    simp [createEpub, mapWithIndex]
  refine ⟨_, hmem1, _, hmem2, rfl, rfl, ?_⟩
  show extractAfter '<' ("dc:identifier id=\"uid\">".data) '<' (contentOpf ("T".data) [] 1000) ≠
    extractAfter '"' ("dtb:uid\" content=\"".data) '"' (tocNcx ("T".data) [] 1001)
  rw [h1, h2]
  decide

end Epub2
